import Mathlib

/-!
# Verification of the nostr-worlds slot reconciliation core

Shallow embedding of the event codec (`src/lib/nostr/tags.ts`), the growth
functions (`src/lib/game/growth.ts`), the slot-action validator and apply step
(`src/hooks/useSlotActionProcessor.ts`) and the dedup bookkeeping of the
reconciliation loop.

Modelling conventions:
* JavaScript numbers that the code ever observes are integers here; a value
  that may be `NaN` is modelled as `Option Int` (`JsNum`), with `none` = NaN.
  A field that may additionally be `undefined` is an `Option JsNum`.
* JavaScript string truthiness (`!s`) is `s = ""`; number truthiness is
  "`some n` with `n ≠ 0`" (NaN and 0 are falsy).
* `parseInt(s, 10)` is modelled by `jsParseInt` (leading whitespace, optional
  sign, longest digit prefix, NaN when no digit is read), and
  `Number.isFinite` failure is exactly `jsParseInt s = none`.
* `x.toString()` for an integer JS number is `jsNumToString`.
* Async I/O of the reconciliation loop is modelled by an explicit outcome
  parameter (`CycleIO`); a thrown exception caught by the loop is a `fail`
  outcome.
-/

/-! ## Data model, JS primitives, codec, game logic and loop: the embedded definitions -/

/-- A JavaScript number that is either a finite integer or NaN (`none`). -/
abbrev JsNum := Option Int

/-- JS truthiness of a possibly-undefined string: `undefined` and `""` are falsy. -/
def truthyS : Option String → Bool
  | some s => s ≠ ""
  | none => false

/-- JS truthiness of a possibly-undefined, possibly-NaN number:
`undefined`, NaN and 0 are falsy. -/
def numFieldTruthy : Option JsNum → Bool
  | some (some n) => n ≠ 0
  | _ => false

/-- Decimal digit value of a character, if it is one of '0'..'9'. -/
def digitVal? (c : Char) : Option Nat :=
  if '0' ≤ c ∧ c ≤ '9' then some (c.toNat - 48) else none

/-- Accumulate a decimal number over a character list, stopping at the first
non-digit, exactly as `parseInt` consumes its input. The accumulator is `none`
until the first digit has been read. -/
def parseDigits : List Char → Option Nat → Option Nat
  | [], acc => acc
  | c :: cs, acc =>
    match digitVal? c with
    | some d => parseDigits cs (some (acc.getD 0 * 10 + d))
    | none => acc

/-- Skip the leading whitespace that `parseInt` ignores. -/
def skipWs : List Char → List Char
  | [] => []
  | c :: cs => if c = ' ' ∨ c = '\t' ∨ c = '\n' ∨ c = '\r' then skipWs cs else c :: cs

/-- Sign handling and digit consumption of `parseInt(s, 10)`. -/
def jsParseIntCore (l : List Char) : Option Int :=
  match l with
  | [] => none
  | c :: cs =>
    if c = '-' then (parseDigits cs none).map (fun n => -(Int.ofNat n))
    else if c = '+' then (parseDigits cs none).map Int.ofNat
    else (parseDigits (c :: cs) none).map Int.ofNat

/-- Model of JavaScript `parseInt(s, 10)`: `none` is NaN. -/
def jsParseInt (s : String) : Option Int :=
  jsParseIntCore (skipWs s.data)

/-- The decimal digit character for `d` (callers only pass `d < 10`). -/
def digitChar : Nat → Char
  | 0 => '0' | 1 => '1' | 2 => '2' | 3 => '3' | 4 => '4'
  | 5 => '5' | 6 => '6' | 7 => '7' | 8 => '8' | _ => '9'

/-- Decimal digits, least significant first, with a structural fuel so the
kernel can evaluate it (the fuel is sufficient whenever it is at least the
number itself). -/
def natDigitsRevAux : Nat → Nat → List Char
  | _, 0 => []
  | n, fuel + 1 =>
    match n with
    | 0 => []
    | m + 1 => digitChar ((m + 1) % 10) :: natDigitsRevAux ((m + 1) / 10) fuel

/-- Decimal digits of a positive number, least significant first. -/
def natDigitsRev (n : Nat) : List Char := natDigitsRevAux n n

/-- Decimal string of a natural number. -/
def natToString (n : Nat) : String :=
  if n = 0 then "0" else ⟨(natDigitsRev n).reverse⟩

/-- Model of `x.toString()` for an integer JS number. -/
def jsNumToString (i : Int) : String :=
  if i < 0 then "-" ++ natToString i.natAbs else natToString i.natAbs

/-- Model of JavaScript `s.split(':')` on the underlying character list. -/
def splitColon : List Char → List (List Char)
  | [] => [[]]
  | c :: cs =>
    if c = ':' then [] :: splitColon cs
    else
      match splitColon cs with
      | [] => [[c]]
      | p :: ps => (c :: p) :: ps

/-- `s.split(':')` as a list of strings. -/
def splitColonS (s : String) : List String :=
  (splitColon s.data).map fun l => ⟨l⟩

/-- The raw Nostr event envelope, restricted to the fields the core reads. -/
structure NostrEvent where
  kind : Int
  created_at : Int
  pubkey : String
  content : String
  tags : List (List String)
deriving DecidableEq

/-- An integer grid coordinate pair. -/
structure Coord where
  x : Int
  y : Int
deriving DecidableEq

/-- Decoded `WorldState` (kind 31415). -/
structure WorldState where
  event : NostrEvent
  id : String
  version : String
  type : String
  name : String
  renderpackUrl : String
  entryMap : String
  season : Option String
deriving DecidableEq

/-- Decoded `MapState` (kind 31416). -/
structure MapState where
  event : NostrEvent
  id : String
  version : String
  worldId : String
  layout : String
  renderpackUrl : String
  name : Option String
  description : Option String
deriving DecidableEq

/-- Decoded `SlotState` (kind 31417). Plant-only fields are absent (`none`)
on empty slots and vice versa, mirroring the TypeScript optional fields. -/
structure SlotState where
  event : NostrEvent
  id : String
  version : String
  worldId : String
  mapId : String
  slot : Coord
  type : String
  crop : Option String := none
  stage : Option Int := none
  plantedAt : Option JsNum := none
  readyAt : Option JsNum := none
  harvestCount : Option JsNum := none
  harvestMax : Option JsNum := none
  regrowAt : Option JsNum := none
  expiresAt : Option JsNum := none
  status : Option String := none
  lastHarvestedAt : Option JsNum := none
deriving DecidableEq

/-- Decoded `SlotAction` (kind 14159). -/
structure SlotAction where
  event : NostrEvent
  version : String
  worldId : String
  mapId : String
  slot : Coord
  slotD : String
  action : String
  expectedRev : Int
  clientNonce : String
  crop : Option String
deriving DecidableEq

/-- `getTag`: value of the first tag whose name matches; `undefined` both when
no tag matches and when the matching tag has no value, as in the source. -/
def getTag (event : NostrEvent) (tagName : String) : Option String :=
  match event.tags.find? (fun t => t.head? = some tagName) with
  | some t => t.get? 1
  | none => none

/-- The `event.tags.find(([name]) => name === 'slot')` lookup. -/
def findSlotTag (event : NostrEvent) : Option (List String) :=
  event.tags.find? (fun t => t.head? = some "slot")

/-- Lines 100–117 of `parseSlotState`: resolve the two historical coordinate
encodings of the `slot` tag (`["slot", x, y]` or `["slot", "x:y"]`) into raw
coordinate strings; `none` components are the `undefined` of the source. -/
def slotTagXY (slotTag : List String) : Option String × Option String :=
  match slotTag.get? 2 with
  | some y2 => (slotTag.get? 1, some y2)
  | none =>
    match slotTag.get? 1 with
    | some s1 =>
      if s1 ≠ "" ∧ s1.data.contains ':' then
        match splitColonS s1 with
        | [a, b] => (some a, some b)
        | _ => (none, none)
      else (none, none)
    | none => (none, none)

/-- `str ? parseInt(str, 10) : undefined` for an optional numeric tag. -/
def optNum (o : Option String) : Option JsNum :=
  match o with
  | some s => if s = "" then none else some (jsParseInt s)
  | none => none

/-- JS `a || dflt` on an optional string. -/
def jsOr (o : Option String) (dflt : String) : String :=
  match o with
  | some s => if s = "" then dflt else s
  | none => dflt

/-- `parseWorldState` (kind 31415). -/
def parseWorldState (event : NostrEvent) : Option WorldState :=
  if event.kind ≠ 31415 then none else
  let d := getTag event "d"
  let v := getTag event "v"
  let type := getTag event "type"
  let name := getTag event "name"
  let renderpackUrl := getTag event "renderpack_url"
  let entryMap := getTag event "entry_map"
  if !truthyS d || !truthyS v || !truthyS type || !truthyS name ||
      !truthyS renderpackUrl || !truthyS entryMap then none
  else some {
    event
    id := d.getD ""
    version := v.getD ""
    type := type.getD ""
    name := name.getD ""
    renderpackUrl := renderpackUrl.getD ""
    entryMap := entryMap.getD ""
    season := getTag event "season" }

/-- `parseMapState` (kind 31416). -/
def parseMapState (event : NostrEvent) : Option MapState :=
  if event.kind ≠ 31416 then none else
  let d := getTag event "d"
  let v := getTag event "v"
  let worldId := getTag event "world"
  let layout := getTag event "layout"
  let renderpackUrl := getTag event "renderpack_url"
  if !truthyS d || !truthyS v || !truthyS worldId || !truthyS layout ||
      !truthyS renderpackUrl then none
  else some {
    event
    id := d.getD ""
    version := v.getD ""
    worldId := worldId.getD ""
    layout := layout.getD ""
    renderpackUrl := renderpackUrl.getD ""
    name := getTag event "name"
    description := getTag event "desc" }

/-- `parseSlotState` (kind 31417), including the `type || 'plant'` legacy
default, the `crop` requirement for plant slots, and the `planted_at`
fallback to `event.created_at`. -/
def parseSlotState (event : NostrEvent) : Option SlotState :=
  if event.kind ≠ 31417 then none else
  let d := getTag event "d"
  let v := getTag event "v"
  let worldId := getTag event "world"
  let mapId := getTag event "map"
  let type := getTag event "type"
  match findSlotTag event with
  | none => none
  | some slotTag =>
    let slotX := (slotTagXY slotTag).1
    let slotY := (slotTagXY slotTag).2
    if !truthyS d || !truthyS v || !truthyS worldId || !truthyS mapId ||
        !truthyS slotX || !truthyS slotY then none
    else
      match jsParseInt (slotX.getD ""), jsParseInt (slotY.getD "") with
      | some x, some y =>
        if type = some "empty" then
          some {
            event
            id := d.getD ""
            version := v.getD ""
            worldId := worldId.getD ""
            mapId := mapId.getD ""
            slot := ⟨x, y⟩
            type := jsOr type "plant"
            status := getTag event "status"
            lastHarvestedAt := optNum (getTag event "last_harvested_at") }
        else
          let crop := getTag event "crop"
          if !truthyS crop then none
          else
            let stageNum : JsNum :=
              match getTag event "stage" with
              | some st => if st = "" then some 0 else jsParseInt st
              | none => some 0
            match stageNum with
            | none => none
            | some stage =>
              some {
                event
                id := d.getD ""
                version := v.getD ""
                worldId := worldId.getD ""
                mapId := mapId.getD ""
                slot := ⟨x, y⟩
                type := jsOr type "plant"
                crop := crop
                stage := some stage
                plantedAt := some (match getTag event "planted_at" with
                  | some pa => if pa = "" then some event.created_at else jsParseInt pa
                  | none => some event.created_at)
                readyAt := optNum (getTag event "ready_at")
                harvestCount := optNum (getTag event "harvest_count")
                harvestMax := optNum (getTag event "harvest_max")
                regrowAt := optNum (getTag event "regrow_at")
                expiresAt := optNum (getTag event "expires_at") }
      | _, _ => none

/-- `parseSlotAction` (kind 14159). Note: unlike `parseSlotState`, the slot
tag is read only as two separate values, with no `"x:y"` handling. -/
def parseSlotAction (event : NostrEvent) : Option SlotAction :=
  if event.kind ≠ 14159 then none else
  let v := getTag event "v"
  let worldId := getTag event "world"
  let mapId := getTag event "map"
  let slotD := getTag event "slot_d"
  let action := getTag event "action"
  let expectedRevStr := getTag event "expected_rev"
  let clientNonce := getTag event "client_nonce"
  match findSlotTag event with
  | none => none
  | some slotTag =>
    let slotX := slotTag.get? 1
    let slotY := slotTag.get? 2
    if !truthyS v || !truthyS worldId || !truthyS mapId || !truthyS slotX ||
        !truthyS slotY || !truthyS slotD || !truthyS action ||
        !truthyS expectedRevStr || !truthyS clientNonce then none
    else
      match jsParseInt (slotX.getD ""), jsParseInt (slotY.getD "") with
      | some x, some y =>
        match jsParseInt (expectedRevStr.getD "") with
        | none => none
        | some expectedRev =>
          some {
            event
            version := v.getD ""
            worldId := worldId.getD ""
            mapId := mapId.getD ""
            slot := ⟨x, y⟩
            slotD := slotD.getD ""
            action := action.getD ""
            expectedRev
            clientNonce := clientNonce.getD ""
            crop := getTag event "crop" }
      | _, _ => none

/-- `getSlotRevision`: planting timestamp for an occupied slot with a truthy
`plantedAt`; the event log timestamp otherwise. -/
def getSlotRevision (slotState : SlotState) : Int :=
  match slotState.plantedAt with
  | some (some n) => if slotState.type = "plant" ∧ n ≠ 0 then n else slotState.event.created_at
  | _ => slotState.event.created_at

/-- Per-crop timing metadata from the renderpack (numeric fields are
integer-valued here; an absent optional field is `none`). -/
structure CropMetadata where
  file : String
  stages : Int
  harvestStage : Option Int := none
  stageDurationSec : Option Int := none
deriving DecidableEq

/-- Default stage duration in seconds (5 minutes). -/
def DEFAULT_STAGE_DURATION_SEC : Int := 300

/-- `cropMeta.stageDurationSec && cropMeta.stageDurationSec > 0 ? ... : 300`
(for an integer, JS truthiness plus the positivity test collapse to `0 < d`). -/
def effStageDuration (cropMeta : CropMetadata) : Int :=
  match cropMeta.stageDurationSec with
  | some dur => if 0 < dur then dur else DEFAULT_STAGE_DURATION_SEC
  | none => DEFAULT_STAGE_DURATION_SEC

/-- `computeGrowthStage(plantedAtSec, nowSec, cropMeta)`.
Integer division `/` is Euclidean division, which agrees with JS
`Math.floor(a / b)` for the positive divisors used here. -/
def computeGrowthStage (plantedAtSec nowSec : Int) (cropMeta : CropMetadata) : Int :=
  if nowSec < plantedAtSec then 0
  else
    let stageDuration := effStageDuration cropMeta
    let elapsedSec := nowSec - plantedAtSec
    let stageIndex := elapsedSec / stageDuration
    let maxStage := cropMeta.stages - 1
    let finalStage := max 0 (min stageIndex maxStage)
    match cropMeta.harvestStage with
    | some h => min finalStage h
    | none => finalStage

/-- `computeSecondsUntilNextStage(plantedAtSec, nowSec, cropMeta, currentStage)`:
`none` when already at the effective max stage (`harvestStage ?? stages - 1`). -/
def computeSecondsUntilNextStage (plantedAtSec nowSec : Int) (cropMeta : CropMetadata)
    (currentStage : Int) : Option Int :=
  let maxStage := (cropMeta.harvestStage).getD (cropMeta.stages - 1)
  if maxStage ≤ currentStage then none
  else
    let stageDuration := effStageDuration cropMeta
    let nextStageTime := plantedAtSec + (currentStage + 1) * stageDuration
    some (max 0 (nextStageTime - nowSec))

/-- Result of `validateAction`. -/
structure ValidationResult where
  valid : Bool
  reason : Option String := none
deriving DecidableEq

/-- The revision-mismatch rejection text built by the source's template
literal. -/
def revMismatchReason (expected got : Int) : String :=
  "Revision mismatch: expected " ++ jsNumToString expected ++ ", got " ++ jsNumToString got

/-- `validateAction(action, currentSlot)`: the pure accept/reject decision. -/
def validateAction (action : SlotAction) (currentSlot : Option SlotState) :
    ValidationResult :=
  if action.action = "harvest" then
    match currentSlot with
    | none => { valid := false, reason := some "Slot does not exist" }
    | some s =>
      if s.type ≠ "plant" then { valid := false, reason := some "Slot is not a plant" }
      else if !truthyS s.crop then { valid := false, reason := some "Slot has no crop" }
      else
        let currentRev := getSlotRevision s
        if action.expectedRev ≠ currentRev then
          { valid := false, reason := some (revMismatchReason action.expectedRev currentRev) }
        else { valid := true }
  else if action.action = "plant" then
    if !truthyS action.crop then { valid := false, reason := some "Missing crop identifier" }
    else
      match currentSlot with
      | some s =>
        let currentRev := getSlotRevision s
        if action.expectedRev ≠ currentRev then
          { valid := false, reason := some (revMismatchReason action.expectedRev currentRev) }
        else if s.type ≠ "empty" then { valid := false, reason := some "Slot is not empty" }
        else { valid := true }
      | none =>
        if action.expectedRev ≠ 0 then
          { valid := false,
            reason := some ("New slot must have expected_rev=0, got " ++
              jsNumToString action.expectedRev) }
        else { valid := true }
  else { valid := false, reason := some ("Unknown action type: " ++ action.action) }

/-- The SlotState event that `applyAction` publishes for a validated action,
with `now = Math.floor(Date.now() / 1000)` the processing-time second.  The
publish helper stamps `created_at` with the same clock sample.  A `plant`
action without a crop throws in the source; that exception is `none` here,
as is the source's silent no-publish for any other action kind. -/
def appliedSlotEvent (action : SlotAction) (now : Int) : Option NostrEvent :=
  if action.action = "harvest" then
    some {
      kind := 31417
      created_at := now
      pubkey := ""
      content := ""
      tags := [
        ["d", action.slotD],
        ["v", "1"],
        ["world", action.worldId],
        ["map", action.mapId],
        ["slot", jsNumToString action.slot.x, jsNumToString action.slot.y],
        ["type", "empty"],
        ["status", "empty"],
        ["last_harvested_at", jsNumToString now],
        ["t", action.worldId]] }
  else if action.action = "plant" then
    match action.crop with
    | some crop =>
      if crop = "" then none
      else
        some {
          kind := 31417
          created_at := now
          pubkey := ""
          content := ""
          tags := [
            ["d", action.slotD],
            ["v", "1"],
            ["world", action.worldId],
            ["map", action.mapId],
            ["slot", jsNumToString action.slot.x, jsNumToString action.slot.y],
            ["type", "plant"],
            ["crop", crop],
            ["stage", "0"],
            ["planted_at", jsNumToString now],
            ["t", action.worldId]] }
    | none => none
  else none

/-- `` `${pubkey}:${clientNonce}:${slotD}:${action}` ``, the dedup key. -/
def dedupKey (action : SlotAction) : String :=
  action.event.pubkey ++ ":" ++ action.clientNonce ++ ":" ++ action.slotD ++ ":" ++ action.action

/-- Outcome of the awaited I/O inside the loop's try block: the point query
for an uncached slot threw, the publish threw, or the publish succeeded. -/
inductive CycleIO
  | fetchFail
  | publishFail
  | publishOk
deriving DecidableEq

/-- One iteration of the `processActions` loop over the processed-keys set:
skip already-processed keys; on an exception nothing is recorded (the catch
block); an invalid action is marked processed unless its reason is the
never-produced 'Slot not loaded yet'; a valid action is marked processed
only after the publish succeeded. -/
def processOneAction (processed : List String) (action : SlotAction)
    (currentSlot : Option SlotState) (io : CycleIO) : List String :=
  let actionKey := dedupKey action
  if processed.contains actionKey then processed
  else
    match io with
    | .fetchFail => processed
    | _ =>
      let r := validateAction action currentSlot
      if r.valid then
        match io with
        | .publishOk => actionKey :: processed
        | _ => processed
      else
        if r.reason ≠ some "Slot not loaded yet" then actionKey :: processed
        else processed

/-- The revision function exactly as §4.3 of the spec words it: an occupied
slot's revision is its planting timestamp, unconditionally; any other slot's
revision is the underlying event's log timestamp. (The log timestamp also
stands in when the decoded planting timestamp is absent or NaN, values the
spec's data model does not give to an occupied slot.) Modelled from the
spec's words, to be compared with the source's `getSlotRevision`. -/
def specRevisionOf (s : SlotState) : Int :=
  if s.type = "plant" then
    match s.plantedAt with
    | some (some n) => n
    | _ => s.event.created_at
  else s.event.created_at

/-- The acceptance condition exactly as §4.4 of the spec words it, with the
revision compared per §4.3's `revisionOf`: harvest needs an occupied slot
with a crop and a matching revision; plant needs a crop id and either an
empty current slot with matching revision or an absent slot claimed at
revision 0 ("no crop" is a falsy crop field, per the source's truthiness
tests). Modelled from the spec's words. -/
def specAcceptsAction (action : SlotAction) (currentSlot : Option SlotState) : Prop :=
  (action.action = "harvest" ∧ ∃ s, currentSlot = some s ∧ s.type = "plant" ∧
      truthyS s.crop = true ∧ action.expectedRev = specRevisionOf s) ∨
  (action.action = "plant" ∧ truthyS action.crop = true ∧
    ((∃ s, currentSlot = some s ∧ s.type = "empty" ∧
        action.expectedRev = specRevisionOf s) ∨
      (currentSlot = none ∧ action.expectedRev = 0)))

/-- The same acceptance condition with the revision the source actually
compares: `getSlotRevision`, whose truthiness guard falls back to the log
timestamp when an occupied slot's planting timestamp is 0 or NaN. This is
the condition `validateAction` decides. -/
def guardedAcceptsAction (action : SlotAction) (currentSlot : Option SlotState) : Prop :=
  (action.action = "harvest" ∧ ∃ s, currentSlot = some s ∧ s.type = "plant" ∧
      truthyS s.crop = true ∧ action.expectedRev = getSlotRevision s) ∨
  (action.action = "plant" ∧ truthyS action.crop = true ∧
    ((∃ s, currentSlot = some s ∧ s.type = "empty" ∧
        action.expectedRev = getSlotRevision s) ∨
      (currentSlot = none ∧ action.expectedRev = 0)))

/-- A well-formed plant SlotAction event used as a concrete fixture. -/
def evPlant : NostrEvent := {
  kind := 14159, created_at := 10, pubkey := "alice", content := "",
  tags := [["v", "1"], ["world", "w1"], ["map", "m1"], ["slot", "3", "2"],
    ["slot_d", "slot:w1:m1:3:2"], ["action", "plant"], ["expected_rev", "0"],
    ["client_nonce", "n1"], ["crop", "carrot"], ["t", "w1"]] }

/-- The decoded form of `evPlant`. -/
def actPlant : SlotAction := {
  event := evPlant, version := "1", worldId := "w1", mapId := "m1",
  slot := ⟨3, 2⟩, slotD := "slot:w1:m1:3:2", action := "plant",
  expectedRev := 0, clientNonce := "n1", crop := some "carrot" }

/-- An action with an unknown kind, for exercising the unknown-action rule. -/
def actWater : SlotAction := {
  event := evPlant, version := "1", worldId := "w1", mapId := "m1",
  slot := ⟨3, 2⟩, slotD := "slot:w1:m1:3:2", action := "water",
  expectedRev := 0, clientNonce := "n9", crop := none }

/-- A decoded occupied slot whose stored planting timestamp is 0: the
truthiness guard in `getSlotRevision` then falls back to the log timestamp. -/
def evPlantedAtZero : NostrEvent := {
  kind := 31417, created_at := 777, pubkey := "host", content := "",
  tags := [["d", "s1"], ["v", "1"], ["world", "w"], ["map", "m"],
    ["slot", "1", "1"], ["type", "plant"], ["crop", "wheat"], ["planted_at", "0"]] }

/-- The decoded form of `evPlantedAtZero`. -/
def slotPlantedAtZero : SlotState := {
  event := evPlantedAtZero, id := "s1", version := "1", worldId := "w",
  mapId := "m", slot := ⟨1, 1⟩, type := "plant", crop := some "wheat",
  stage := some 0, plantedAt := some (some 0) }

/-- A harvest SlotAction event claiming expected revision 777 — the log
timestamp of `evPlantedAtZero`, not that slot's planting timestamp 0. -/
def evHarvest777 : NostrEvent := {
  kind := 14159, created_at := 900, pubkey := "mallory", content := "",
  tags := [["v", "1"], ["world", "w"], ["map", "m"], ["slot", "1", "1"],
    ["slot_d", "s1"], ["action", "harvest"], ["expected_rev", "777"],
    ["client_nonce", "x1"], ["t", "w"]] }

/-- The decoded form of `evHarvest777`. -/
def actHarvest777 : SlotAction := {
  event := evHarvest777, version := "1", worldId := "w", mapId := "m",
  slot := ⟨1, 1⟩, slotD := "s1", action := "harvest",
  expectedRev := 777, clientNonce := "x1", crop := none }

/-- The SlotState event behind `slotWheat`. -/
def evWheat : NostrEvent := {
  kind := 31417, created_at := 50, pubkey := "host", content := "",
  tags := [["d", "slot:w1:m1:3:2"], ["v", "1"], ["world", "w1"], ["map", "m1"],
    ["slot", "3", "2"], ["type", "plant"], ["crop", "wheat"], ["planted_at", "40"]] }

/-- A decoded occupied slot with a normal planting timestamp. -/
def slotWheat : SlotState := {
  event := evWheat,
  id := "slot:w1:m1:3:2", version := "1", worldId := "w1", mapId := "m1",
  slot := ⟨3, 2⟩, type := "plant", crop := some "wheat",
  stage := some 0, plantedAt := some (some 40) }

/-- Scenario D's crop metadata. -/
def metaScenD : CropMetadata := ⟨"carrot.png", 4, some 2, some 100⟩

/-- Metadata with a negative `harvestStage`, as nothing in the decoder or the
growth code rules out. -/
def metaNegHarvest : CropMetadata := ⟨"crop.png", 4, some (-1), some 100⟩

/-- Metadata whose `harvestStage` exceeds `stages - 1`, as nothing in the
decoder or the growth code rules out. -/
def metaHarvestAboveStages : CropMetadata := ⟨"weed.png", 2, some 5, some 100⟩

/-- A legacy kind-31417 envelope with no `type` tag and no `planted_at` tag. -/
def evNoType : NostrEvent := {
  kind := 31417, created_at := 500, pubkey := "p", content := "",
  tags := [["d", "sX"], ["v", "1"], ["world", "w"], ["map", "m"],
    ["slot", "3", "2"], ["crop", "carrot"]] }

/-- The decoded form of `evNoType`. -/
def slotNoType : SlotState := {
  event := evNoType, id := "sX", version := "1", worldId := "w", mapId := "m",
  slot := ⟨3, 2⟩, type := "plant", crop := some "carrot", stage := some 0,
  plantedAt := some (some 500) }

/-- A kind-31417 envelope whose `planted_at` tag is non-numeric. -/
def evBadPlantedAt : NostrEvent := {
  kind := 31417, created_at := 100, pubkey := "p", content := "",
  tags := [["d", "s2"], ["v", "1"], ["world", "w"], ["map", "m"],
    ["slot", "1", "2"], ["type", "plant"], ["crop", "corn"], ["planted_at", "abc"]] }

/-- The decoded form of `evBadPlantedAt`: the entity decodes, with a NaN
planting timestamp. -/
def slotBadPlantedAt : SlotState := {
  event := evBadPlantedAt, id := "s2", version := "1", worldId := "w", mapId := "m",
  slot := ⟨1, 2⟩, type := "plant", crop := some "corn", stage := some 0,
  plantedAt := some none }

/-- The normalized coordinate pair that `parseSlotState` would return,
replicating its success conditions; used to state that the pair does not
depend on which historical slot-tag encoding the envelope carries. -/
def slotPairOf (event : NostrEvent) : Option Coord :=
  if event.kind ≠ 31417 then none else
  let d := getTag event "d"
  let v := getTag event "v"
  let worldId := getTag event "world"
  let mapId := getTag event "map"
  let type := getTag event "type"
  match findSlotTag event with
  | none => none
  | some slotTag =>
    let slotX := (slotTagXY slotTag).1
    let slotY := (slotTagXY slotTag).2
    if !truthyS d || !truthyS v || !truthyS worldId || !truthyS mapId ||
        !truthyS slotX || !truthyS slotY then none
    else
      match jsParseInt (slotX.getD ""), jsParseInt (slotY.getD "") with
      | some x, some y =>
        if type = some "empty" then some ⟨x, y⟩
        else
          let crop := getTag event "crop"
          if !truthyS crop then none
          else
            let stageNum : JsNum :=
              match getTag event "stage" with
              | some st => if st = "" then some 0 else jsParseInt st
              | none => some 0
            match stageNum with
            | none => none
            | some _ => some ⟨x, y⟩
      | _, _ => none

/-- The action envelope `evPlant` with its coordinates in the delimiter-joined
encoding instead of two scalar values. -/
def evPlantJoined : NostrEvent := { evPlant with
  tags := [["v", "1"], ["world", "w1"], ["map", "m1"], ["slot", "3:2"],
    ["slot_d", "slot:w1:m1:3:2"], ["action", "plant"], ["expected_rev", "0"],
    ["client_nonce", "n1"], ["crop", "carrot"], ["t", "w1"]] }

/-- The non-slot tags of the C7 witness envelope. -/
def c7base : List (List String) :=
  [["d", "sZ"], ["v", "1"], ["world", "w"], ["map", "m"], ["type", "plant"],
    ["crop", "c"]]

/-- The slot revision an action is validated against: 0 when no current slot
exists (the spec's "absence ≡ revision 0" convention), else the derived
revision. -/
def currentRevOf : Option SlotState → Int
  | none => 0
  | some s => getSlotRevision s

/-- The SlotState event published when a plant action with crop `c` is
applied at time `now` (the body of `applyAction`'s plant branch). -/
def appliedPlantEvt (a : SlotAction) (now : Int) (c : String) : NostrEvent :=
  { kind := 31417, created_at := now, pubkey := "", content := "",
    tags := [["d", a.slotD], ["v", "1"], ["world", a.worldId], ["map", a.mapId],
      ["slot", jsNumToString a.slot.x, jsNumToString a.slot.y], ["type", "plant"],
      ["crop", c], ["stage", "0"], ["planted_at", jsNumToString now],
      ["t", a.worldId]] }

/-- The SlotState event published when a harvest action is applied at `now`
(the body of `applyAction`'s harvest branch). -/
def appliedHarvestEvt (a : SlotAction) (now : Int) : NostrEvent :=
  { kind := 31417, created_at := now, pubkey := "", content := "",
    tags := [["d", a.slotD], ["v", "1"], ["world", a.worldId], ["map", a.mapId],
      ["slot", jsNumToString a.slot.x, jsNumToString a.slot.y], ["type", "empty"],
      ["status", "empty"], ["last_harvested_at", jsNumToString now],
      ["t", a.worldId]] }

/-- The decoded form of `appliedPlantEvt`. -/
def appliedPlantSlot (a : SlotAction) (now : Int) (c : String) : SlotState :=
  { event := appliedPlantEvt a now c,
    id := a.slotD, version := "1", worldId := a.worldId, mapId := a.mapId,
    slot := a.slot, type := "plant", crop := some c, stage := some 0,
    plantedAt := some (some now) }

/-- The decoded form of `appliedHarvestEvt`. -/
def appliedHarvestSlot (a : SlotAction) (now : Int) : SlotState :=
  { event := appliedHarvestEvt a now,
    id := a.slotD, version := "1", worldId := a.worldId, mapId := a.mapId,
    slot := a.slot, type := "empty", status := some "empty",
    lastHarvestedAt := some (some now) }

/-- A second plant action for the same absent slot, from another client. -/
def evPlant2 : NostrEvent := {
  kind := 14159, created_at := 11, pubkey := "bob", content := "",
  tags := [["v", "1"], ["world", "w1"], ["map", "m1"], ["slot", "3", "2"],
    ["slot_d", "slot:w1:m1:3:2"], ["action", "plant"], ["expected_rev", "0"],
    ["client_nonce", "n2"], ["crop", "carrot"], ["t", "w1"]] }

/-- The decoded form of `evPlant2`. -/
def actPlant2 : SlotAction := {
  event := evPlant2, version := "1", worldId := "w1", mapId := "m1",
  slot := ⟨3, 2⟩, slotD := "slot:w1:m1:3:2", action := "plant",
  expectedRev := 0, clientNonce := "n2", crop := some "carrot" }

/-- A plant action against the occupied slot `slotWheat`, claiming its
revision 40, from client alice. -/
def evQ1 : NostrEvent := {
  kind := 14159, created_at := 60, pubkey := "alice", content := "",
  tags := [["v", "1"], ["world", "w1"], ["map", "m1"], ["slot", "3", "2"],
    ["slot_d", "slot:w1:m1:3:2"], ["action", "plant"], ["expected_rev", "40"],
    ["client_nonce", "q1"], ["crop", "carrot"], ["t", "w1"]] }

/-- The decoded form of `evQ1`. -/
def actQ1 : SlotAction := {
  event := evQ1, version := "1", worldId := "w1", mapId := "m1",
  slot := ⟨3, 2⟩, slotD := "slot:w1:m1:3:2", action := "plant",
  expectedRev := 40, clientNonce := "q1", crop := some "carrot" }

/-- The same plant intent from client bob. -/
def evQ2 : NostrEvent := {
  kind := 14159, created_at := 61, pubkey := "bob", content := "",
  tags := [["v", "1"], ["world", "w1"], ["map", "m1"], ["slot", "3", "2"],
    ["slot_d", "slot:w1:m1:3:2"], ["action", "plant"], ["expected_rev", "40"],
    ["client_nonce", "q2"], ["crop", "carrot"], ["t", "w1"]] }

/-- The decoded form of `evQ2`. -/
def actQ2 : SlotAction := {
  event := evQ2, version := "1", worldId := "w1", mapId := "m1",
  slot := ⟨3, 2⟩, slotD := "slot:w1:m1:3:2", action := "plant",
  expectedRev := 40, clientNonce := "q2", crop := some "carrot" }

/-- A harvest action against `slotWheat`, claiming its revision 40. -/
def evHarvest : NostrEvent := {
  kind := 14159, created_at := 70, pubkey := "alice", content := "",
  tags := [["v", "1"], ["world", "w1"], ["map", "m1"], ["slot", "3", "2"],
    ["slot_d", "slot:w1:m1:3:2"], ["action", "harvest"], ["expected_rev", "40"],
    ["client_nonce", "h1"], ["t", "w1"]] }

/-- The decoded form of `evHarvest`. -/
def actHarvest : SlotAction := {
  event := evHarvest, version := "1", worldId := "w1", mapId := "m1",
  slot := ⟨3, 2⟩, slotD := "slot:w1:m1:3:2", action := "harvest",
  expectedRev := 40, clientNonce := "h1", crop := none }

/-- The empty-slot event published by applying `actHarvest` at time 100. -/
def evAfterHarvest : NostrEvent := {
  kind := 31417, created_at := 100, pubkey := "", content := "",
  tags := [["d", "slot:w1:m1:3:2"], ["v", "1"], ["world", "w1"], ["map", "m1"],
    ["slot", "3", "2"], ["type", "empty"], ["status", "empty"],
    ["last_harvested_at", "100"], ["t", "w1"]] }

/-- The decoded form of `evAfterHarvest`. -/
def slotAfterHarvest : SlotState := {
  event := evAfterHarvest, id := "slot:w1:m1:3:2", version := "1",
  worldId := "w1", mapId := "m1", slot := ⟨3, 2⟩, type := "empty",
  status := some "empty", lastHarvestedAt := some (some 100) }

/-! ## Round-trip facts about the JS number/string primitives -/

theorem digitVal_digitChar {d : Nat} (h : d < 10) : digitVal? (digitChar d) = some d := by
  interval_cases d <;> rfl

theorem digit_not_special {c : Char} (h : (digitVal? c).isSome) :
    c ≠ '-' ∧ c ≠ '+' ∧ ¬(c = ' ' ∨ c = '\t' ∨ c = '\n' ∨ c = '\r') := by
  unfold digitVal? at h
  split at h
  · next hc =>
    refine ⟨?_, ?_, ?_⟩
    · rintro rfl; exact absurd hc (by decide)
    · rintro rfl; exact absurd hc (by decide)
    · rintro (rfl | rfl | rfl | rfl) <;> exact absurd hc (by decide)
  · simp at h

theorem natDigitsRev_zero : natDigitsRev 0 = [] := rfl

theorem natDigitsRevAux_fuel (n : Nat) : ∀ f1 f2, n ≤ f1 → n ≤ f2 →
    natDigitsRevAux n f1 = natDigitsRevAux n f2 := by
  induction n using Nat.strong_induction_on with
  | _ n ih =>
    intro f1 f2 h1 _h2
    cases n with
    | zero => cases f1 <;> cases f2 <;> rfl
    | succ m =>
      cases f1 with
      | zero => omega
      | succ g1 =>
        cases f2 with
        | zero => omega
        | succ g2 =>
          show digitChar ((m + 1) % 10) :: natDigitsRevAux ((m + 1) / 10) g1 =
            digitChar ((m + 1) % 10) :: natDigitsRevAux ((m + 1) / 10) g2
          congr 1
          exact ih ((m + 1) / 10) (by omega) g1 g2 (by omega) (by omega)

theorem natDigitsRev_succ (m : Nat) :
    natDigitsRev (m + 1) = digitChar ((m + 1) % 10) :: natDigitsRev ((m + 1) / 10) := by
  show digitChar ((m + 1) % 10) :: natDigitsRevAux ((m + 1) / 10) m =
    digitChar ((m + 1) % 10) :: natDigitsRevAux ((m + 1) / 10) ((m + 1) / 10)
  congr 1
  exact natDigitsRevAux_fuel ((m + 1) / 10) m ((m + 1) / 10) (by omega) (by omega)

theorem parseDigits_append_digits (xs ys : List Char) (acc : Option Nat)
    (h : ∀ c ∈ xs, (digitVal? c).isSome) :
    parseDigits (xs ++ ys) acc = parseDigits ys (parseDigits xs acc) := by
  induction xs generalizing acc with
  | nil => rfl
  | cons c cs ih =>
    obtain ⟨d, hd⟩ := Option.isSome_iff_exists.mp (h c (List.mem_cons_self c cs))
    simp only [List.cons_append, parseDigits, hd]
    exact ih _ (fun x hx => h x (List.mem_cons_of_mem c hx))

theorem natDigitsRev_all_digits (n : Nat) : ∀ c ∈ natDigitsRev n, (digitVal? c).isSome := by
  induction n using Nat.strong_induction_on with
  | _ n ih =>
    match n with
    | 0 => intro c hc; rw [natDigitsRev_zero] at hc; simp at hc
    | m + 1 =>
      intro c hc
      rw [natDigitsRev_succ] at hc
      rcases List.mem_cons.mp hc with h | h
      · subst h
        rw [digitVal_digitChar (Nat.mod_lt _ (by omega))]
        rfl
      · exact ih ((m + 1) / 10) (Nat.div_lt_self (Nat.succ_pos m) (by norm_num)) c h

theorem parseDigits_natDigitsRev (n : Nat) (a : Nat) :
    parseDigits (natDigitsRev n).reverse (some a) =
      some (a * 10 ^ (natDigitsRev n).length + n) := by
  induction n using Nat.strong_induction_on with
  | _ n ih =>
    match n with
    | 0 => simp [natDigitsRev_zero, parseDigits]
    | m + 1 =>
      rw [natDigitsRev_succ, List.reverse_cons,
        parseDigits_append_digits _ _ _ (by
          intro c hc
          exact natDigitsRev_all_digits _ c (List.mem_reverse.mp hc)),
        ih ((m + 1) / 10) (Nat.div_lt_self (Nat.succ_pos m) (by norm_num))]
      simp only [parseDigits, digitVal_digitChar (Nat.mod_lt _ (by omega : 0 < 10)),
        Option.getD_some, List.length_cons, List.length_reverse]
      have hm : (m + 1) / 10 * 10 + (m + 1) % 10 = m + 1 := by omega
      congr 1
      calc (a * 10 ^ (natDigitsRev ((m + 1) / 10)).length + (m + 1) / 10) * 10 + (m + 1) % 10
          = a * (10 ^ (natDigitsRev ((m + 1) / 10)).length * 10) +
              ((m + 1) / 10 * 10 + (m + 1) % 10) := by ring
        _ = a * 10 ^ ((natDigitsRev ((m + 1) / 10)).length + 1) + (m + 1) := by
              rw [hm, pow_succ]

theorem parseDigits_none_eq_some_zero (c : Char) (cs : List Char)
    (h : (digitVal? c).isSome) :
    parseDigits (c :: cs) none = parseDigits (c :: cs) (some 0) := by
  obtain ⟨d, hd⟩ := Option.isSome_iff_exists.mp h
  simp [parseDigits, hd]

theorem natToString_head_digit (n : Nat) :
    ∃ c cs, (natToString n).data = c :: cs ∧ (digitVal? c).isSome := by
  unfold natToString
  by_cases h : n = 0
  · subst h; exact ⟨'0', [], rfl, rfl⟩
  · simp only [h, if_false]
    cases hr : (natDigitsRev n).reverse with
    | nil =>
      exfalso
      match n, h with
      | m + 1, _ =>
        rw [natDigitsRev_succ] at hr
        simp at hr
    | cons c cs =>
      refine ⟨c, cs, rfl, ?_⟩
      have hmem : c ∈ (natDigitsRev n).reverse := by rw [hr]; exact List.mem_cons_self c cs
      exact natDigitsRev_all_digits n c (List.mem_reverse.mp hmem)

theorem parseDigits_natToString (n : Nat) :
    parseDigits (natToString n).data none = some n := by
  obtain ⟨c, cs, hc, hd⟩ := natToString_head_digit n
  rw [hc, parseDigits_none_eq_some_zero c cs hd, ← hc]
  unfold natToString
  by_cases h : n = 0
  · subst h; rfl
  · simp only [h, if_false]
    show parseDigits (natDigitsRev n).reverse (some 0) = some n
    rw [parseDigits_natDigitsRev]
    simp

/-- `parseInt` inverts integer `toString`: the round trip used when the
processor re-reads a slot event that it just encoded. -/
theorem jsParseInt_jsNumToString (i : Int) : jsParseInt (jsNumToString i) = some i := by
  obtain ⟨c, cs, hc, hd⟩ := natToString_head_digit i.natAbs
  obtain ⟨hminus, hplus, hws⟩ := digit_not_special hd
  unfold jsParseInt jsNumToString
  by_cases hneg : i < 0
  · simp only [hneg, if_true]
    have hdata : ("-" ++ natToString i.natAbs).data = '-' :: (natToString i.natAbs).data := by
      cases hns : natToString i.natAbs
      rfl
    rw [hdata, hc]
    show jsParseIntCore (skipWs ('-' :: c :: cs)) = some i
    have hskip : skipWs ('-' :: c :: cs) = '-' :: c :: cs := by
      rw [skipWs, if_neg (by decide)]
    rw [hskip]
    show (if '-' = '-' then (parseDigits (c :: cs) none).map (fun n => -(Int.ofNat n))
      else if '-' = '+' then (parseDigits (c :: cs) none).map Int.ofNat
      else (parseDigits ('-' :: c :: cs) none).map Int.ofNat) = some i
    rw [if_pos rfl, ← hc, parseDigits_natToString]
    simp only [Option.map_some', Option.some.injEq, Int.ofNat_eq_coe]
    omega
  · simp only [hneg, if_false]
    rw [hc]
    show jsParseIntCore (skipWs (c :: cs)) = some i
    have hskip : skipWs (c :: cs) = c :: cs := by
      rw [skipWs, if_neg hws]
    rw [hskip]
    show (if c = '-' then (parseDigits cs none).map (fun n => -(Int.ofNat n))
      else if c = '+' then (parseDigits cs none).map Int.ofNat
      else (parseDigits (c :: cs) none).map Int.ofNat) = some i
    rw [if_neg hminus, if_neg hplus, ← hc, parseDigits_natToString]
    simp only [Option.map_some', Option.some.injEq, Int.ofNat_eq_coe]
    omega

theorem jsNumToString_ne_empty (i : Int) : jsNumToString i ≠ "" := by
  intro h
  have := jsParseInt_jsNumToString i
  rw [h] at this
  simp [jsParseInt, skipWs, jsParseIntCore] at this

/-! ## C1: the validator decides per the spec's rules, up to the revision guard -/

theorem getSlotRevision_eq_specRevisionOf (s : SlotState)
    (h : s.type = "plant" → numFieldTruthy s.plantedAt = true) :
    getSlotRevision s = specRevisionOf s := by
  unfold getSlotRevision specRevisionOf
  cases hpa : s.plantedAt with
  | none =>
    try dsimp only
    rw [ite_self]
  | some j =>
    cases j with
    | none =>
      try dsimp only
      rw [ite_self]
    | some n =>
      try dsimp only
      by_cases hty : s.type = "plant"
      · have hn : n ≠ 0 := by
          have := h hty
          rw [hpa] at this
          simpa [numFieldTruthy] using this
        rw [if_pos ⟨hty, hn⟩, if_pos hty]
      · rw [if_neg (fun hc => hty hc.1), if_neg hty]

/-- C1 (amended): for every Action and every current-Slot input,
`validateAction` accepts exactly the actions the spec's harvest/plant rules
accept when the revision compared is the source's truthiness-guarded
`getSlotRevision`; any other action kind is rejected as unknown; and the
guarded condition coincides with the spec's §4.3-based acceptance condition
whenever every occupied current slot carries a truthy planting timestamp. -/
theorem validateAction_decides_per_spec (action : SlotAction)
    (currentSlot : Option SlotState) :
    ((validateAction action currentSlot).valid = true ↔
      guardedAcceptsAction action currentSlot) ∧
    (action.action ≠ "harvest" → action.action ≠ "plant" →
      validateAction action currentSlot =
        { valid := false, reason := some ("Unknown action type: " ++ action.action) }) ∧
    ((∀ s, currentSlot = some s → s.type = "plant" →
        numFieldTruthy s.plantedAt = true) →
      (specAcceptsAction action currentSlot ↔
        guardedAcceptsAction action currentSlot)) := by
  refine ⟨?_, ?_, ?_⟩
  · unfold validateAction guardedAcceptsAction
    by_cases hh : action.action = "harvest"
    · rw [if_pos hh]
      cases currentSlot with
      | none => simp [hh]
      | some s =>
        dsimp only
        by_cases h1 : s.type ≠ "plant"
        · rw [if_pos h1]
          simp only [hh]
          constructor
          · intro habs; exact absurd habs (by simp)
          · rintro (⟨_, s', hs', hty, _⟩ | ⟨hp, _⟩)
            · cases hs'; exact absurd hty h1
            · exact absurd hp (by decide)
        · rw [if_neg h1]
          push_neg at h1
          by_cases h2 : !truthyS s.crop
          · rw [if_pos h2]
            simp only [hh]
            constructor
            · intro habs; exact absurd habs (by simp)
            · rintro (⟨_, s', hs', _, hcrop, _⟩ | ⟨hp, _⟩)
              · cases hs'; simp [hcrop] at h2
              · exact absurd hp (by decide)
          · rw [if_neg h2]
            by_cases h3 : action.expectedRev ≠ getSlotRevision s
            · rw [if_pos h3]
              constructor
              · intro habs; exact absurd habs (by simp)
              · rintro (⟨_, s', hs', _, _, hrev⟩ | ⟨hp, _⟩)
                · cases hs'; exact absurd hrev h3
                · rw [hh] at hp; exact absurd hp (by decide)
            · rw [if_neg h3]
              push_neg at h3
              simp only [true_iff]
              exact Or.inl ⟨hh, s, by trivial, h1, by simpa using h2, h3⟩
    · rw [if_neg hh]
      by_cases hp : action.action = "plant"
      · rw [if_pos hp]
        by_cases hc : !truthyS action.crop
        · rw [if_pos hc]
          constructor
          · intro habs; exact absurd habs (by simp)
          · rintro (⟨hph, _⟩ | ⟨_, hcrop, _⟩)
            · exact absurd hph hh
            · simp [hcrop] at hc
        · rw [if_neg hc]
          cases currentSlot with
          | none =>
            dsimp only
            by_cases hr : action.expectedRev ≠ 0
            · rw [if_pos hr]
              constructor
              · intro habs; exact absurd habs (by simp)
              · rintro (⟨hph, _⟩ | ⟨_, _, ⟨s', hs', _⟩ | ⟨_, hrev⟩⟩)
                · exact absurd hph hh
                · exact Option.noConfusion hs'
                · exact absurd hrev hr
            · rw [if_neg hr]
              push_neg at hr
              simp only [true_iff]
              exact Or.inr ⟨hp, by simpa using hc, Or.inr ⟨by trivial, hr⟩⟩
          | some s =>
            dsimp only
            by_cases hr : action.expectedRev ≠ getSlotRevision s
            · rw [if_pos hr]
              constructor
              · intro habs; exact absurd habs (by simp)
              · rintro (⟨hph, _⟩ | ⟨_, _, ⟨s', hs', _, hrev⟩ | ⟨hn, _⟩⟩)
                · exact absurd hph hh
                · cases hs'; exact absurd hrev hr
                · exact Option.noConfusion hn
            · rw [if_neg hr]
              push_neg at hr
              by_cases hty : s.type ≠ "empty"
              · rw [if_pos hty]
                constructor
                · intro habs; exact absurd habs (by simp)
                · rintro (⟨hph, _⟩ | ⟨_, _, ⟨s', hs', hty', _⟩ | ⟨hn, _⟩⟩)
                  · exact absurd hph hh
                  · cases hs'; exact absurd hty' hty
                  · exact Option.noConfusion hn
              · rw [if_neg hty]
                push_neg at hty
                simp only [true_iff]
                exact Or.inr ⟨hp, by simpa using hc, Or.inl ⟨s, by trivial, hty, hr⟩⟩
      · rw [if_neg hp]
        constructor
        · intro habs; exact absurd habs (by simp)
        · rintro (⟨hph, _⟩ | ⟨hpp, _⟩)
          · exact absurd hph hh
          · exact absurd hpp hp
  · intro hh hp
    unfold validateAction
    rw [if_neg hh, if_neg hp]
  · intro htruthy
    unfold specAcceptsAction guardedAcceptsAction
    constructor
    · rintro (⟨hh, s, hs, hty, hcrop, hrev⟩ | ⟨hp, hcrop, ⟨s, hs, hty, hrev⟩ | ⟨hn, hrev⟩⟩)
      · exact Or.inl ⟨hh, s, hs, hty, hcrop,
          hrev.trans (getSlotRevision_eq_specRevisionOf s (htruthy s hs)).symm⟩
      · exact Or.inr ⟨hp, hcrop, Or.inl ⟨s, hs, hty,
          hrev.trans (getSlotRevision_eq_specRevisionOf s (htruthy s hs)).symm⟩⟩
      · exact Or.inr ⟨hp, hcrop, Or.inr ⟨hn, hrev⟩⟩
    · rintro (⟨hh, s, hs, hty, hcrop, hrev⟩ | ⟨hp, hcrop, ⟨s, hs, hty, hrev⟩ | ⟨hn, hrev⟩⟩)
      · exact Or.inl ⟨hh, s, hs, hty, hcrop,
          hrev.trans (getSlotRevision_eq_specRevisionOf s (htruthy s hs))⟩
      · exact Or.inr ⟨hp, hcrop, Or.inl ⟨s, hs, hty,
          hrev.trans (getSlotRevision_eq_specRevisionOf s (htruthy s hs))⟩⟩
      · exact Or.inr ⟨hp, hcrop, Or.inr ⟨hn, hrev⟩⟩

/-- C1 counterexample: a decoded harvest action claiming 777, the log
timestamp of a decoded occupied slot whose stored planting timestamp is 0 —
the spec's §4.3 revision of that slot is its planting timestamp 0, so the
spec's rules reject the claim as a stale read, yet `validateAction` accepts
it, because the truthiness guard in `getSlotRevision` makes the compared
revision fall back to 777. -/
theorem validateAction_decides_per_spec_counterexample :
    parseSlotState evPlantedAtZero = some slotPlantedAtZero ∧
    parseSlotAction evHarvest777 = some actHarvest777 ∧
    slotPlantedAtZero.type = "plant" ∧
    specRevisionOf slotPlantedAtZero = 0 ∧
    (validateAction actHarvest777 (some slotPlantedAtZero)).valid = true ∧
    ¬ specAcceptsAction actHarvest777 (some slotPlantedAtZero) := by
  refine ⟨by decide, by decide, rfl, by decide, by decide, ?_⟩
  rintro (⟨_, s, hs, _, _, hrev⟩ | ⟨hpl, _⟩)
  · cases hs
    revert hrev
    decide
  · exact absurd hpl (by decide)

/-- C1 witness: the amended theorem applied at a concrete unknown-kind
action, and its agreement clause applied at a concrete occupied slot whose
planting timestamp is truthy. -/
theorem validateAction_decides_per_spec_witness :
    (validateAction actWater none =
      { valid := false, reason := some ("Unknown action type: " ++ actWater.action) }) ∧
    (specAcceptsAction actHarvest (some slotWheat) ↔
      guardedAcceptsAction actHarvest (some slotWheat)) :=
  ⟨(validateAction_decides_per_spec actWater none).2.1 (by decide) (by decide),
   (validateAction_decides_per_spec actHarvest (some slotWheat)).2.2
     (by intro s hs _h; cases hs; decide)⟩

/-! ## C3: the derived revision of a decoded slot -/

/-- C3 counterexample: a decoded occupied slot (type 'plant') whose revision
is the event's log timestamp 777, not its planting timestamp 0 — the claim
says an occupied slot's revision is always the planting timestamp. -/
theorem getSlotRevision_counterexample :
    parseSlotState evPlantedAtZero = some slotPlantedAtZero ∧
    slotPlantedAtZero.type = "plant" ∧
    slotPlantedAtZero.plantedAt = some (some 0) ∧
    getSlotRevision slotPlantedAtZero = 777 ∧ (777 : Int) ≠ 0 := by
  refine ⟨by decide, rfl, rfl, by decide, by decide⟩

/-- C3 (amended): `getSlotRevision` returns the planting timestamp exactly
when the slot is occupied ('plant') and the stored timestamp is truthy
(present, finite, nonzero); in every other case — including an occupied slot
whose timestamp is 0 or NaN — it returns the event's log timestamp. -/
theorem getSlotRevision_spec (s : SlotState) :
    (∀ n, s.plantedAt = some (some n) → s.type = "plant" → n ≠ 0 →
      getSlotRevision s = n) ∧
    (s.type ≠ "plant" → getSlotRevision s = s.event.created_at) ∧
    (numFieldTruthy s.plantedAt = false → getSlotRevision s = s.event.created_at) := by
  refine ⟨?_, ?_, ?_⟩
  · intro n hpa hty hn
    unfold getSlotRevision
    rw [hpa]
    simp [hty, hn]
  · intro hty
    unfold getSlotRevision
    cases hpa : s.plantedAt with
    | none => rfl
    | some jn =>
      cases jn with
      | none => rfl
      | some n => simp [hty]
  · intro hfalsy
    unfold getSlotRevision
    cases hpa : s.plantedAt with
    | none => rfl
    | some jn =>
      cases jn with
      | none => rfl
      | some n =>
        rw [hpa] at hfalsy
        unfold numFieldTruthy at hfalsy
        simp only [decide_eq_false_iff_not, Decidable.not_not] at hfalsy
        simp [hfalsy]

/-- C3 witness: the amended rule evaluated on a concrete occupied slot. -/
theorem getSlotRevision_spec_witness : getSlotRevision slotWheat = 40 :=
  (getSlotRevision_spec slotWheat).1 40 rfl rfl (by decide)

/-! ## C5 and C9: growth monotonicity, bounds, and next-stage consistency -/

theorem effStageDuration_pos (cropMeta : CropMetadata) : 0 < effStageDuration cropMeta := by
  unfold effStageDuration DEFAULT_STAGE_DURATION_SEC
  cases cropMeta.stageDurationSec with
  | none => dsimp only; norm_num
  | some dur =>
    dsimp only
    by_cases hdur : 0 < dur
    · rw [if_pos hdur]; exact hdur
    · rw [if_neg hdur]; norm_num

theorem ediv_mul_bounds (a d : Int) (hd : 0 < d) :
    a / d * d ≤ a ∧ a < a / d * d + d := by
  have h1 := Int.emod_add_ediv a d
  have h2 := Int.emod_nonneg a (by omega : d ≠ 0)
  have h3 := Int.emod_lt_of_pos a hd
  constructor <;> nlinarith [h1, h2, h3]

theorem computeGrowthStage_eq_of_le (p n : Int) (cropMeta : CropMetadata) (hpn : p ≤ n) :
    computeGrowthStage p n cropMeta =
      match cropMeta.harvestStage with
      | some h => min (max 0 (min ((n - p) / effStageDuration cropMeta)
          (cropMeta.stages - 1))) h
      | none => max 0 (min ((n - p) / effStageDuration cropMeta) (cropMeta.stages - 1)) := by
  simp only [computeGrowthStage]
  rw [if_neg (by omega)]

theorem computeGrowthStage_nonneg (p n : Int) (cropMeta : CropMetadata)
    (hharvest : ∀ h, cropMeta.harvestStage = some h → 0 ≤ h) :
    0 ≤ computeGrowthStage p n cropMeta := by
  by_cases hpn : p ≤ n
  · rw [computeGrowthStage_eq_of_le p n cropMeta hpn]
    cases hhs : cropMeta.harvestStage with
    | none => dsimp only; omega
    | some h => have := hharvest h hhs; dsimp only; omega
  · simp only [computeGrowthStage]
    rw [if_pos (by omega)]

/-- C5 (amended): for well-formed crop metadata (at least one stage and a
non-negative `harvestStage` when one is given), `computeGrowthStage` is
non-decreasing in `now` and always lies in
`[0, min(stages - 1, harvestStage ?? stages - 1)]`. -/
theorem computeGrowthStage_monotone_bounded (plantedAt n1 n2 : Int)
    (cropMeta : CropMetadata)
    (hstages : 1 ≤ cropMeta.stages)
    (hharvest : ∀ h, cropMeta.harvestStage = some h → 0 ≤ h)
    (h12 : n1 ≤ n2) :
    computeGrowthStage plantedAt n1 cropMeta ≤ computeGrowthStage plantedAt n2 cropMeta ∧
    0 ≤ computeGrowthStage plantedAt n1 cropMeta ∧
    computeGrowthStage plantedAt n1 cropMeta ≤
      min (cropMeta.stages - 1) ((cropMeta.harvestStage).getD (cropMeta.stages - 1)) := by
  have hd := effStageDuration_pos cropMeta
  refine ⟨?_, computeGrowthStage_nonneg _ _ _ hharvest, ?_⟩
  · by_cases h1 : plantedAt ≤ n1
    · have h2 : plantedAt ≤ n2 := by omega
      rw [computeGrowthStage_eq_of_le _ _ _ h1, computeGrowthStage_eq_of_le _ _ _ h2]
      have hidx : (n1 - plantedAt) / effStageDuration cropMeta ≤
          (n2 - plantedAt) / effStageDuration cropMeta :=
        Int.ediv_le_ediv hd (by omega)
      cases hhs : cropMeta.harvestStage with
      | none => dsimp only; omega
      | some h => dsimp only; omega
    · simp only [computeGrowthStage]
      rw [if_pos (by omega)]
      exact computeGrowthStage_nonneg _ _ _ hharvest
  · by_cases h1 : plantedAt ≤ n1
    · rw [computeGrowthStage_eq_of_le _ _ _ h1]
      cases hhs : cropMeta.harvestStage with
      | none => dsimp only; simp only [Option.getD_none]; omega
      | some h =>
        have := hharvest h hhs
        dsimp only
        simp only [Option.getD_some]
        omega
    · simp only [computeGrowthStage]
      rw [if_pos (by omega)]
      cases hhs : cropMeta.harvestStage with
      | none => simp only [Option.getD_none]; omega
      | some h =>
        have := hharvest h hhs
        simp only [Option.getD_some]
        omega

/-- C5 witness: monotonicity and bounds evaluated on scenario D's metadata. -/
theorem computeGrowthStage_monotone_bounded_witness :
    computeGrowthStage 1000 1100 metaScenD ≤ computeGrowthStage 1000 1200 metaScenD ∧
    0 ≤ computeGrowthStage 1000 1100 metaScenD ∧
    computeGrowthStage 1000 1100 metaScenD ≤
      min (metaScenD.stages - 1) ((metaScenD.harvestStage).getD (metaScenD.stages - 1)) :=
  computeGrowthStage_monotone_bounded 1000 1100 1200 metaScenD (by decide)
    (by intro h hh; simp [metaScenD] at hh; omega) (by decide)

/-- C5 counterexample: with `harvestStage = -1` the stage value drops from 0
(at `now = 999 < plantedAt`) to -1 (at `now = 1000`), so `computeGrowthStage`
is neither non-decreasing in `now` nor within the claimed `[0, …]` range. -/
theorem computeGrowthStage_counterexample :
    (999 : Int) ≤ 1000 ∧
    ¬ computeGrowthStage 1000 999 metaNegHarvest ≤
        computeGrowthStage 1000 1000 metaNegHarvest ∧
    computeGrowthStage 1000 1000 metaNegHarvest = -1 := by decide

/-- C9 (amended): `computeSecondsUntilNextStage` returns `none` exactly when
`currentStage` has reached the effective maximum `harvestStage ?? stages - 1`,
and otherwise a non-negative second count — both unconditionally; and,
provided `harvestStage`, when defined, does not exceed `stages - 1`,
advancing `now` by the returned count from the currently computed stage
reaches exactly the next stage. -/
theorem computeSecondsUntilNextStage_spec (plantedAt now : Int)
    (cropMeta : CropMetadata) :
    (∀ currentStage, computeSecondsUntilNextStage plantedAt now cropMeta currentStage = none ↔
      (cropMeta.harvestStage).getD (cropMeta.stages - 1) ≤ currentStage) ∧
    (∀ currentStage r,
      computeSecondsUntilNextStage plantedAt now cropMeta currentStage = some r → 0 ≤ r) ∧
    ((∀ h, cropMeta.harvestStage = some h → h ≤ cropMeta.stages - 1) →
      ∀ r, computeSecondsUntilNextStage plantedAt now cropMeta
          (computeGrowthStage plantedAt now cropMeta) = some r →
        computeGrowthStage plantedAt (now + r) cropMeta =
          computeGrowthStage plantedAt now cropMeta + 1) := by
  have hd : 0 < effStageDuration cropMeta := effStageDuration_pos cropMeta
  refine ⟨?_, ?_, ?_⟩
  · intro currentStage
    simp only [computeSecondsUntilNextStage]
    by_cases hm : (cropMeta.harvestStage).getD (cropMeta.stages - 1) ≤ currentStage
    · rw [if_pos hm]; simp [hm]
    · rw [if_neg hm]; simp [hm]
  · intro currentStage r hr
    simp only [computeSecondsUntilNextStage] at hr
    by_cases hm : (cropMeta.harvestStage).getD (cropMeta.stages - 1) ≤ currentStage
    · rw [if_pos hm] at hr; exact Option.noConfusion hr
    · rw [if_neg hm] at hr
      simp only [Option.some.injEq] at hr
      omega
  · intro hharvest r hr
    simp only [computeSecondsUntilNextStage] at hr
    by_cases hm : (cropMeta.harvestStage).getD (cropMeta.stages - 1) ≤
        computeGrowthStage plantedAt now cropMeta
    · rw [if_pos hm] at hr; exact Option.noConfusion hr
    · rw [if_neg hm] at hr
      simp only [Option.some.injEq] at hr
      by_cases hnp : now < plantedAt
      · -- clock-skew branch: the current stage is 0
        have hcs0 : computeGrowthStage plantedAt now cropMeta = 0 := by
          simp only [computeGrowthStage]; rw [if_pos hnp]
        rw [hcs0] at hr hm ⊢
        -- the effective max is positive, so stage 1 exists below every clamp
        have hone : 1 ≤ cropMeta.stages - 1 ∧
            (∀ h, cropMeta.harvestStage = some h → 1 ≤ h) := by
          cases hhs : cropMeta.harvestStage with
          | none =>
            rw [hhs] at hm; simp only [Option.getD_none] at hm
            exact ⟨by omega, by intro h hh; exact Option.noConfusion hh⟩
          | some h =>
            rw [hhs] at hm; simp only [Option.getD_some] at hm
            have := hharvest h hhs
            exact ⟨by omega, by intro h2 hh; cases hh; omega⟩
        have hrval : r = plantedAt + effStageDuration cropMeta - now := by omega
        have hnr : now + r = plantedAt + effStageDuration cropMeta := by omega
        rw [hnr, computeGrowthStage_eq_of_le _ _ _ (by omega)]
        have hdd : plantedAt + effStageDuration cropMeta - plantedAt =
            effStageDuration cropMeta := by ring
        rw [hdd, Int.ediv_self (by omega)]
        cases hhs : cropMeta.harvestStage with
        | none => dsimp only; omega
        | some h =>
          have h1 := hone.2 h hhs
          dsimp only; omega
      · -- the regular branch: the current stage is the clamped floor index
        push_neg at hnp
        have hb := ediv_mul_bounds (now - plantedAt) (effStageDuration cropMeta) hd
        rw [computeGrowthStage_eq_of_le _ _ _ hnp] at hr hm ⊢
        cases hhs : cropMeta.harvestStage with
        | none =>
          rw [hhs] at hr hm
          dsimp only at hr hm ⊢
          simp only [Option.getD_none] at hm
          -- below the cap, the clamps vanish: the stage is the raw index
          have hcq : max 0 (min ((now - plantedAt) / effStageDuration cropMeta)
                (cropMeta.stages - 1)) = (now - plantedAt) / effStageDuration cropMeta ∧
              (now - plantedAt) / effStageDuration cropMeta + 1 ≤ cropMeta.stages - 1 := by
            have hq0 : 0 ≤ (now - plantedAt) / effStageDuration cropMeta :=
              Int.ediv_nonneg (by omega) (by omega)
            omega
          rw [hcq.1] at hr ⊢
          have hexp : ((now - plantedAt) / effStageDuration cropMeta + 1) *
              effStageDuration cropMeta =
              (now - plantedAt) / effStageDuration cropMeta * effStageDuration cropMeta +
                effStageDuration cropMeta := by ring
          rw [hexp] at hr
          have hrval : r = plantedAt +
              ((now - plantedAt) / effStageDuration cropMeta * effStageDuration cropMeta +
                effStageDuration cropMeta) - now := by
            generalize hA : (now - plantedAt) / effStageDuration cropMeta *
              effStageDuration cropMeta = A at hr hb
            omega
          have hnr : now + r = plantedAt +
              ((now - plantedAt) / effStageDuration cropMeta + 1) *
                effStageDuration cropMeta := by
            rw [hrval]; ring
          rw [hnr]
          have hpc : plantedAt ≤ plantedAt +
              ((now - plantedAt) / effStageDuration cropMeta + 1) *
                effStageDuration cropMeta := by
            have hpos : 0 < ((now - plantedAt) / effStageDuration cropMeta + 1) *
                effStageDuration cropMeta :=
              mul_pos (by omega) hd
            omega
          rw [computeGrowthStage_eq_of_le _ _ _ hpc, hhs]
          dsimp only
          have hsub : plantedAt + ((now - plantedAt) / effStageDuration cropMeta + 1) *
              effStageDuration cropMeta - plantedAt =
              ((now - plantedAt) / effStageDuration cropMeta + 1) *
                effStageDuration cropMeta := by ring
          rw [hsub, Int.mul_ediv_cancel _ (by omega : effStageDuration cropMeta ≠ 0)]
          omega
        | some h =>
          rw [hhs] at hr hm
          dsimp only at hr hm ⊢
          simp only [Option.getD_some] at hm
          have hle := hharvest h hhs
          have hcq : min (max 0 (min ((now - plantedAt) / effStageDuration cropMeta)
                (cropMeta.stages - 1))) h =
                (now - plantedAt) / effStageDuration cropMeta ∧
              (now - plantedAt) / effStageDuration cropMeta + 1 ≤ h := by
            have hq0 : 0 ≤ (now - plantedAt) / effStageDuration cropMeta :=
              Int.ediv_nonneg (by omega) (by omega)
            omega
          rw [hcq.1] at hr ⊢
          have hexp : ((now - plantedAt) / effStageDuration cropMeta + 1) *
              effStageDuration cropMeta =
              (now - plantedAt) / effStageDuration cropMeta * effStageDuration cropMeta +
                effStageDuration cropMeta := by ring
          rw [hexp] at hr
          have hrval : r = plantedAt +
              ((now - plantedAt) / effStageDuration cropMeta * effStageDuration cropMeta +
                effStageDuration cropMeta) - now := by
            generalize hA : (now - plantedAt) / effStageDuration cropMeta *
              effStageDuration cropMeta = A at hr hb
            omega
          have hnr : now + r = plantedAt +
              ((now - plantedAt) / effStageDuration cropMeta + 1) *
                effStageDuration cropMeta := by
            rw [hrval]; ring
          rw [hnr]
          have hpc : plantedAt ≤ plantedAt +
              ((now - plantedAt) / effStageDuration cropMeta + 1) *
                effStageDuration cropMeta := by
            have hpos : 0 < ((now - plantedAt) / effStageDuration cropMeta + 1) *
                effStageDuration cropMeta :=
              mul_pos (by omega) hd
            omega
          rw [computeGrowthStage_eq_of_le _ _ _ hpc, hhs]
          dsimp only
          have hsub : plantedAt + ((now - plantedAt) / effStageDuration cropMeta + 1) *
              effStageDuration cropMeta - plantedAt =
              ((now - plantedAt) / effStageDuration cropMeta + 1) *
                effStageDuration cropMeta := by ring
          rw [hsub, Int.mul_ediv_cancel _ (by omega : effStageDuration cropMeta ≠ 0)]
          omega

/-- C9 witness: on scenario D's metadata, at `now = 1150` (stage 1) the
remaining 50 seconds land exactly on stage 2, and stage 2 is terminal. -/
theorem computeSecondsUntilNextStage_spec_witness :
    (computeSecondsUntilNextStage 1000 1150 metaScenD 2 = none ↔
      (metaScenD.harvestStage).getD (metaScenD.stages - 1) ≤ 2) ∧
    computeGrowthStage 1000 (1150 + 50) metaScenD =
      computeGrowthStage 1000 1150 metaScenD + 1 := by
  have h := computeSecondsUntilNextStage_spec 1000 1150 metaScenD
  exact ⟨h.1 2,
    h.2.2 (by intro h hh; simp [metaScenD] at hh ⊢; omega) 50 (by decide)⟩

/-- C9 counterexample: with `harvestStage = 5 > stages - 1 = 1`, the stage at
`now = 150` is 1, strictly below the claimed effective maximum 5, and
`computeSecondsUntilNextStage` returns 50 — but 50 seconds later the stage is
still 1, not 2: floor-consistency fails as claimed. -/
theorem computeSecondsUntilNextStage_counterexample :
    computeGrowthStage 0 150 metaHarvestAboveStages = 1 ∧
    (1 : Int) < (metaHarvestAboveStages.harvestStage).getD
      (metaHarvestAboveStages.stages - 1) ∧
    computeSecondsUntilNextStage 0 150 metaHarvestAboveStages
      (computeGrowthStage 0 150 metaHarvestAboveStages) = some 50 ∧
    computeGrowthStage 0 (150 + 50) metaHarvestAboveStages ≠
      computeGrowthStage 0 150 metaHarvestAboveStages + 1 := by decide

/-! ## C8: the dedup key is recorded only after a successful publish -/

/-- C8: in the reconciliation loop, an action accepted by the validator is
marked processed only when the publish succeeds; a publish or fetch failure
leaves the processed set unchanged, so the action is retried on a later
cycle. -/
theorem processedSet_records_only_after_publish (processed : List String)
    (action : SlotAction) (currentSlot : Option SlotState)
    (hvalid : (validateAction action currentSlot).valid = true) :
    processOneAction processed action currentSlot CycleIO.publishFail = processed ∧
    processOneAction processed action currentSlot CycleIO.fetchFail = processed ∧
    (dedupKey action ∉ processed →
      processOneAction processed action currentSlot CycleIO.publishOk =
        dedupKey action :: processed) := by
  by_cases hmem : dedupKey action ∈ processed
  · simp [processOneAction, hmem]
  · simp [processOneAction, hmem, hvalid]

/-- C8 witness: the bookkeeping evaluated for the concrete valid plant action
against an absent slot. -/
theorem processedSet_records_only_after_publish_witness :
    processOneAction [] actPlant none CycleIO.publishFail = [] ∧
    processOneAction [] actPlant none CycleIO.fetchFail = [] ∧
    (dedupKey actPlant ∉ ([] : List String) →
      processOneAction [] actPlant none CycleIO.publishOk = [dedupKey actPlant]) :=
  processedSet_records_only_after_publish [] actPlant none (by decide)

/-! ## C10: kind-31417 envelopes with no `type` tag decode as plant slots -/

/-- C10: a kind-31417 envelope with no `type` tag is decoded on the plant
path: it yields nothing without a crop tag, and whenever it decodes, the
result is typed 'plant' with a planting timestamp that is present, falling
back to the envelope's `created_at` when the `planted_at` tag is absent. -/
theorem parseSlotState_defaults_to_plant (ev : NostrEvent)
    (hkind : ev.kind = 31417) (htype : getTag ev "type" = none) :
    (getTag ev "crop" = none → parseSlotState ev = none) ∧
    (∀ s, parseSlotState ev = some s → s.type = "plant" ∧ (s.plantedAt).isSome = true ∧
      (getTag ev "planted_at" = none → s.plantedAt = some (some ev.created_at))) := by
  unfold parseSlotState
  rw [if_neg (by rw [hkind]; decide), htype]
  constructor
  · intro hcrop
    rw [hcrop]
    cases hslot : findSlotTag ev with
    | none => rfl
    | some slotTag =>
      try dsimp only
      split
      · rfl
      · split
        · rw [if_neg (by decide)]
          try dsimp only
          rw [if_pos (by decide)]
        · rfl
  · intro s hs
    cases hslot : findSlotTag ev with
    | none => rw [hslot] at hs; exact Option.noConfusion hs
    | some slotTag =>
      rw [hslot] at hs
      try dsimp only at hs
      split at hs
      · exact Option.noConfusion hs
      · split at hs
        · rw [if_neg (by decide)] at hs
          try dsimp only at hs
          split at hs
          · exact Option.noConfusion hs
          · split at hs
            · exact Option.noConfusion hs
            · cases hs
              refine ⟨rfl, rfl, ?_⟩
              intro hpanone
              rw [hpanone]
        · exact Option.noConfusion hs

/-- C10 witness: the legacy-default rule evaluated on a concrete typeless
envelope. -/
theorem parseSlotState_defaults_to_plant_witness :
    slotNoType.type = "plant" ∧ slotNoType.plantedAt = some (some evNoType.created_at) := by
  have h := parseSlotState_defaults_to_plant evNoType (by decide) (by decide)
  obtain ⟨hty, hsome, hfb⟩ := h.2 slotNoType (by decide)
  exact ⟨hty, hfb (by decide)⟩

/-! ## Decoder soundness: a decoded entity certifies its envelope -/

theorem getD_ne_of_truthy {o : Option String} (h : truthyS o = true) : o.getD "" ≠ "" := by
  cases o with
  | none => exact Bool.noConfusion h
  | some s =>
    simp only [truthyS, ne_eq, decide_eq_true_eq] at h
    simpa using h

theorem truthy_exists {o : Option String} (h : truthyS o = true) :
    ∃ s, o = some s ∧ s ≠ "" := by
  cases o with
  | none => exact Bool.noConfusion h
  | some s =>
    simp only [truthyS, ne_eq, decide_eq_true_eq] at h
    exact ⟨s, rfl, h⟩

theorem parseWorldState_sound (ev : NostrEvent) (w : WorldState)
    (h : parseWorldState ev = some w) :
    ev.kind = 31415 ∧ truthyS (getTag ev "d") = true ∧ truthyS (getTag ev "v") = true ∧
    truthyS (getTag ev "type") = true ∧ truthyS (getTag ev "name") = true ∧
    truthyS (getTag ev "renderpack_url") = true ∧ truthyS (getTag ev "entry_map") = true := by
  unfold parseWorldState at h
  split at h
  · exact Option.noConfusion h
  · next hkind =>
    dsimp only at h
    split at h
    · exact Option.noConfusion h
    · next hcond =>
      simp only [Bool.or_eq_true, Bool.not_eq_true', not_or, Bool.not_eq_false] at hcond
      obtain ⟨⟨⟨⟨⟨h1, h2⟩, h3⟩, h4⟩, h5⟩, h6⟩ := hcond
      exact ⟨by omega, h1, h2, h3, h4, h5, h6⟩

theorem parseMapState_sound (ev : NostrEvent) (m : MapState)
    (h : parseMapState ev = some m) :
    ev.kind = 31416 ∧ truthyS (getTag ev "d") = true ∧ truthyS (getTag ev "v") = true ∧
    truthyS (getTag ev "world") = true ∧ truthyS (getTag ev "layout") = true ∧
    truthyS (getTag ev "renderpack_url") = true := by
  unfold parseMapState at h
  split at h
  · exact Option.noConfusion h
  · next hkind =>
    dsimp only at h
    split at h
    · exact Option.noConfusion h
    · next hcond =>
      simp only [Bool.or_eq_true, Bool.not_eq_true', not_or, Bool.not_eq_false] at hcond
      obtain ⟨⟨⟨⟨h1, h2⟩, h3⟩, h4⟩, h5⟩ := hcond
      exact ⟨by omega, h1, h2, h3, h4, h5⟩

theorem parseSlotAction_sound (ev : NostrEvent) (a : SlotAction)
    (h : parseSlotAction ev = some a) :
    ev.kind = 14159 ∧ truthyS (getTag ev "v") = true ∧
    truthyS (getTag ev "world") = true ∧ truthyS (getTag ev "map") = true ∧
    truthyS (getTag ev "slot_d") = true ∧ truthyS (getTag ev "action") = true ∧
    truthyS (getTag ev "client_nonce") = true ∧
    (∃ er, getTag ev "expected_rev" = some er ∧ er ≠ "" ∧
      jsParseInt er = some a.expectedRev) ∧
    (∃ t sx sy, findSlotTag ev = some t ∧ t.get? 1 = some sx ∧ t.get? 2 = some sy ∧
      jsParseInt sx = some a.slot.x ∧ jsParseInt sy = some a.slot.y) ∧
    a.slotD ≠ "" ∧ a.worldId ≠ "" ∧ a.mapId ≠ "" ∧
    a.action = (getTag ev "action").getD "" ∧ a.crop = getTag ev "crop" := by
  unfold parseSlotAction at h
  split at h
  · exact Option.noConfusion h
  · next hkind =>
    dsimp only at h
    split at h
    · exact Option.noConfusion h
    · next slotTag hfind =>
      try dsimp only at h
      split at h
      · exact Option.noConfusion h
      · next hcond =>
        simp only [Bool.or_eq_true, Bool.not_eq_true', not_or, Bool.not_eq_false] at hcond
        obtain ⟨⟨⟨⟨⟨⟨⟨⟨hv, hw⟩, hm⟩, hsx⟩, hsy⟩, hsd⟩, hac⟩, her⟩, hcn⟩ := hcond
        split at h
        · next x y hx hy =>
          split at h
          · exact Option.noConfusion h
          · next er hrev =>
            cases h
            obtain ⟨sxv, hsxv, _⟩ := truthy_exists hsx
            obtain ⟨syv, hsyv, _⟩ := truthy_exists hsy
            obtain ⟨erv, herv, herv2⟩ := truthy_exists her
            refine ⟨by omega, hv, hw, hm, hsd, hac, hcn, ⟨erv, herv, herv2, ?_⟩,
              ⟨slotTag, sxv, syv, hfind, hsxv, hsyv, ?_, ?_⟩,
              getD_ne_of_truthy hsd, getD_ne_of_truthy hw, getD_ne_of_truthy hm,
              rfl, rfl⟩
            · rw [herv] at hrev; simpa using hrev
            · rw [hsxv] at hx; simpa using hx
            · rw [hsyv] at hy; simpa using hy
        · exact Option.noConfusion h

theorem parseSlotState_sound (ev : NostrEvent) (s : SlotState)
    (h : parseSlotState ev = some s) :
    ev.kind = 31417 ∧ truthyS (getTag ev "d") = true ∧ truthyS (getTag ev "v") = true ∧
    truthyS (getTag ev "world") = true ∧ truthyS (getTag ev "map") = true ∧
    (∃ t sx sy, findSlotTag ev = some t ∧ slotTagXY t = (some sx, some sy) ∧
      sx ≠ "" ∧ sy ≠ "" ∧ jsParseInt sx = some s.slot.x ∧ jsParseInt sy = some s.slot.y) ∧
    (getTag ev "type" ≠ some "empty" →
      truthyS (getTag ev "crop") = true ∧
      ∀ st, getTag ev "stage" = some st → st ≠ "" →
        jsParseInt st = some ((s.stage).getD 0)) := by
  unfold parseSlotState at h
  split at h
  · exact Option.noConfusion h
  · next hkind =>
    dsimp only at h
    split at h
    · exact Option.noConfusion h
    · next slotTag hfind =>
      try dsimp only at h
      split at h
      · exact Option.noConfusion h
      · next hcond =>
        simp only [Bool.or_eq_true, Bool.not_eq_true', not_or, Bool.not_eq_false] at hcond
        obtain ⟨⟨⟨⟨⟨hd, hv⟩, hw⟩, hm⟩, hsx⟩, hsy⟩ := hcond
        split at h
        · next x y hx hy =>
          obtain ⟨sxv, hsxv, hsxne⟩ := truthy_exists hsx
          obtain ⟨syv, hsyv, hsyne⟩ := truthy_exists hsy
          have hpair : slotTagXY slotTag = (some sxv, some syv) := by
            rw [show slotTagXY slotTag = ((slotTagXY slotTag).1, (slotTagXY slotTag).2)
              from rfl, hsxv, hsyv]
          rw [hsxv] at hx
          rw [hsyv] at hy
          simp only [Option.getD_some] at hx hy
          split at h
          · -- empty-typed slot
            next hempty =>
            cases h
            refine ⟨by omega, hd, hv, hw, hm,
              ⟨slotTag, sxv, syv, hfind, hpair, hsxne, hsyne, hx, hy⟩, ?_⟩
            intro hne
            exact absurd hempty hne
          · -- plant-typed slot
            next hnotempty =>
            try dsimp only at h
            split at h
            · exact Option.noConfusion h
            · next hcrop =>
              split at h
              · exact Option.noConfusion h
              · next stage hstage =>
                cases h
                refine ⟨by omega, hd, hv, hw, hm,
                  ⟨slotTag, sxv, syv, hfind, hpair, hsxne, hsyne, hx, hy⟩, ?_⟩
                intro _
                refine ⟨by simpa using hcrop, ?_⟩
                intro st hst hstne
                rw [hst] at hstage
                dsimp only at hstage
                rw [if_neg hstne] at hstage
                simpa using hstage
        · exact Option.noConfusion h

/-! ## C6: total, defensive decoding -/

/-- C6 counterexample: a non-numeric `planted_at` timestamp does NOT
invalidate the entity — `parseSlotState` still decodes it, storing NaN in
`plantedAt` — contradicting the claim that any non-finite/non-numeric numeric
field causes the whole entity to decode to null. -/
theorem decoders_counterexample :
    jsParseInt "abc" = none ∧
    parseSlotState evBadPlantedAt = some slotBadPlantedAt ∧
    slotBadPlantedAt.plantedAt = some none := ⟨by decide, by decide, rfl⟩

/-- C6 (amended): every decoder is a total function that yields no entity on
a kind-discriminant mismatch, on any missing or empty required field, and on
a malformed *validated* numeric field (the slot coordinates in both slot
parsers, the stage in `parseSlotState`, the expected revision in
`parseSlotAction`) — equivalently, a decoded entity certifies all of those
facts about its envelope.  Optional timestamp fields are not validated; a
malformed one decodes to NaN without invalidating the entity. -/
theorem decoders_total_defensive :
    (∀ ev w, parseWorldState ev = some w →
      ev.kind = 31415 ∧ truthyS (getTag ev "d") = true ∧
      truthyS (getTag ev "v") = true ∧ truthyS (getTag ev "type") = true ∧
      truthyS (getTag ev "name") = true ∧ truthyS (getTag ev "renderpack_url") = true ∧
      truthyS (getTag ev "entry_map") = true) ∧
    (∀ ev m, parseMapState ev = some m →
      ev.kind = 31416 ∧ truthyS (getTag ev "d") = true ∧
      truthyS (getTag ev "v") = true ∧ truthyS (getTag ev "world") = true ∧
      truthyS (getTag ev "layout") = true ∧
      truthyS (getTag ev "renderpack_url") = true) ∧
    (∀ ev s, parseSlotState ev = some s →
      ev.kind = 31417 ∧ truthyS (getTag ev "d") = true ∧
      truthyS (getTag ev "v") = true ∧ truthyS (getTag ev "world") = true ∧
      truthyS (getTag ev "map") = true ∧
      (∃ t sx sy, findSlotTag ev = some t ∧ slotTagXY t = (some sx, some sy) ∧
        sx ≠ "" ∧ sy ≠ "" ∧ jsParseInt sx = some s.slot.x ∧
        jsParseInt sy = some s.slot.y) ∧
      (getTag ev "type" ≠ some "empty" →
        truthyS (getTag ev "crop") = true ∧
        ∀ st, getTag ev "stage" = some st → st ≠ "" →
          jsParseInt st = some ((s.stage).getD 0))) ∧
    (∀ ev a, parseSlotAction ev = some a →
      ev.kind = 14159 ∧ truthyS (getTag ev "v") = true ∧
      truthyS (getTag ev "world") = true ∧ truthyS (getTag ev "map") = true ∧
      truthyS (getTag ev "slot_d") = true ∧ truthyS (getTag ev "action") = true ∧
      truthyS (getTag ev "client_nonce") = true ∧
      (∃ er, getTag ev "expected_rev" = some er ∧ er ≠ "" ∧
        jsParseInt er = some a.expectedRev) ∧
      (∃ t sx sy, findSlotTag ev = some t ∧ t.get? 1 = some sx ∧ t.get? 2 = some sy ∧
        jsParseInt sx = some a.slot.x ∧ jsParseInt sy = some a.slot.y) ∧
      a.slotD ≠ "" ∧ a.worldId ≠ "" ∧ a.mapId ≠ "" ∧
      a.action = (getTag ev "action").getD "" ∧ a.crop = getTag ev "crop") :=
  ⟨parseWorldState_sound, parseMapState_sound, parseSlotState_sound, parseSlotAction_sound⟩

/-- C6 witness: the certification evaluated on the concrete plant action
envelope. -/
theorem decoders_total_defensive_witness :
    evPlant.kind = 14159 ∧ truthyS (getTag evPlant "v") = true := by
  have h := decoders_total_defensive.2.2.2 evPlant actPlant (by decide)
  exact ⟨h.1, h.2.1⟩

/-! ## C7: the two historical coordinate encodings -/

theorem find?_append_eq {α : Type} (p : α → Bool) (l1 l2 : List α) :
    List.find? p (l1 ++ l2) = (List.find? p l1).orElse (fun _ => List.find? p l2) := by
  induction l1 with
  | nil => simp
  | cons a l ih => by_cases h : p a <;> simp [List.find?, h, ih]

theorem str_data_append (a b : String) : (a ++ b).data = a.data ++ b.data := by
  cases a; cases b; rfl

theorem joined_data (sx sy : String) :
    (sx ++ ":" ++ sy).data = sx.data ++ ':' :: sy.data := by
  rw [str_data_append, str_data_append]
  simp

theorem splitColon_no_colon (l : List Char) (h : ':' ∉ l) : splitColon l = [l] := by
  induction l with
  | nil => rfl
  | cons c cs ih =>
    have hc : ¬ c = ':' := fun hh => h (hh ▸ List.mem_cons_self c cs)
    have hcs : ':' ∉ cs := fun hm => h (List.mem_cons_of_mem c hm)
    rw [splitColon, if_neg hc, ih hcs]

theorem splitColon_append (a b : List Char) (h : ':' ∉ a) :
    splitColon (a ++ ':' :: b) = a :: splitColon b := by
  induction a with
  | nil => rw [List.nil_append, splitColon, if_pos rfl]
  | cons c cs ih =>
    have hc : ¬ c = ':' := fun hh => h (hh ▸ List.mem_cons_self c cs)
    have hcs : ':' ∉ cs := fun hm => h (List.mem_cons_of_mem c hm)
    rw [List.cons_append, splitColon, if_neg hc, ih hcs]

theorem splitColonS_joined (sx sy : String) (hx : ':' ∉ sx.data) (hy : ':' ∉ sy.data) :
    splitColonS (sx ++ ":" ++ sy) = [sx, sy] := by
  unfold splitColonS
  rw [joined_data, splitColon_append _ _ hx, splitColon_no_colon _ hy]
  rfl

theorem slotTagXY_joined (sx sy : String) (hx : ':' ∉ sx.data) (hy : ':' ∉ sy.data) :
    slotTagXY ["slot", sx ++ ":" ++ sy] = (some sx, some sy) := by
  unfold slotTagXY
  have hne : ¬ (sx ++ ":" ++ sy) = "" := by
    intro h
    have := congrArg String.data h
    rw [joined_data] at this
    simp at this
  have hcontains : ((sx ++ ":" ++ sy).data.contains ':') = true := by
    rw [joined_data]
    simp
  rw [show (["slot", sx ++ ":" ++ sy] : List String).get? 2 = none from rfl,
    show (["slot", sx ++ ":" ++ sy] : List String).get? 1 = some (sx ++ ":" ++ sy) from rfl]
  dsimp only
  rw [if_pos (by exact ⟨hne, hcontains⟩), splitColonS_joined sx sy hx hy]

theorem parseSlotState_slotPair (ev : NostrEvent) :
    (parseSlotState ev).map (fun s => s.slot) = slotPairOf ev := by
  unfold parseSlotState slotPairOf
  split
  · rfl
  · dsimp only
    split
    · rfl
    · split
      · rfl
      · split
        · split
          · rfl
          · split
            · rfl
            · split
              · rfl
              · rfl
        · rfl

/-- C7 (amended): `parseSlotState` accepts both historical coordinate
encodings and normalizes them to the same integer pair — an envelope with
`["slot", "x:y"]` decodes to the same pair as the same envelope with
`["slot", x, y]` — but `parseSlotAction` accepts only the two-value
encoding: any slot tag without a second coordinate value decodes to null
there. -/
theorem slot_coordinate_encodings (base : List (List String)) (k ca : Int)
    (pk ct : String) (sx sy : String)
    (hbase : base.find? (fun t => t.head? = some "slot") = none)
    (hx : ':' ∉ sx.data) (hy : ':' ∉ sy.data) :
    ((parseSlotState ⟨k, ca, pk, ct, base ++ [["slot", sx ++ ":" ++ sy]]⟩).map
        (fun s => s.slot) =
      (parseSlotState ⟨k, ca, pk, ct, base ++ [["slot", sx, sy]]⟩).map
        (fun s => s.slot)) ∧
    (∀ ev t, findSlotTag ev = some t → t.get? 2 = none → parseSlotAction ev = none) := by
  constructor
  · rw [parseSlotState_slotPair, parseSlotState_slotPair]
    have hget : ∀ n : String, ¬ n = "slot" →
        getTag ⟨k, ca, pk, ct, base ++ [["slot", sx ++ ":" ++ sy]]⟩ n =
        getTag ⟨k, ca, pk, ct, base ++ [["slot", sx, sy]]⟩ n := by
      intro n hn
      have hns : ("slot" : String) ≠ n := fun h => hn h.symm
      unfold getTag
      dsimp only
      rw [find?_append_eq, find?_append_eq]
      have h1 : List.find? (fun t => t.head? = some n) [["slot", sx ++ ":" ++ sy]] = none := by
        simp [List.find?, hns]
      have h2 : List.find? (fun t => t.head? = some n) [["slot", sx, sy]] = none := by
        simp [List.find?, hns]
      rw [h1, h2]
    have hfind1 : findSlotTag ⟨k, ca, pk, ct, base ++ [["slot", sx ++ ":" ++ sy]]⟩ =
        some ["slot", sx ++ ":" ++ sy] := by
      unfold findSlotTag
      dsimp only
      rw [find?_append_eq, hbase]
      simp [List.find?]
    have hfind2 : findSlotTag ⟨k, ca, pk, ct, base ++ [["slot", sx, sy]]⟩ =
        some ["slot", sx, sy] := by
      unfold findSlotTag
      dsimp only
      rw [find?_append_eq, hbase]
      simp [List.find?]
    unfold slotPairOf
    dsimp only
    rw [hfind1, hfind2]
    dsimp only
    rw [slotTagXY_joined sx sy hx hy,
      show slotTagXY ["slot", sx, sy] = (some sx, some sy) from rfl,
      hget "d" (by decide), hget "v" (by decide), hget "world" (by decide),
      hget "map" (by decide), hget "type" (by decide), hget "crop" (by decide),
      hget "stage" (by decide)]
  · intro ev t hfind hget2
    unfold parseSlotAction
    split
    · rfl
    · dsimp only
      rw [hfind]
      dsimp only
      rw [hget2]
      simp [truthyS]

/-- C7 counterexample: `parseSlotAction` rejects the delimiter-joined
encoding that the claim says every slot-tag decoder accepts — the same
envelope decodes with the two-value encoding but yields null when the
coordinates are joined as `"3:2"`. -/
theorem slot_coordinate_encodings_counterexample :
    parseSlotAction evPlantJoined = none ∧
    parseSlotAction evPlant = some actPlant ∧
    actPlant.slot = ⟨3, 2⟩ := ⟨by decide, by decide, rfl⟩

/-- C7 witness: the amended encoding rule evaluated on a concrete envelope
pair and on the concrete joined-encoding action envelope. -/
theorem slot_coordinate_encodings_witness :
    ((parseSlotState ⟨31417, 5, "", "", c7base ++ [["slot", "3" ++ ":" ++ "2"]]⟩).map
        (fun s => s.slot) =
      (parseSlotState ⟨31417, 5, "", "", c7base ++ [["slot", "3", "2"]]⟩).map
        (fun s => s.slot)) ∧
    parseSlotAction evPlantJoined = none := by
  have h := slot_coordinate_encodings c7base 31417 5 "" "" "3" "2"
    (by decide) (by decide) (by decide)
  exact ⟨h.1, h.2 evPlantJoined ["slot", "3:2"] (by decide) (by decide)⟩

/-! ## C2 and C4: applying an action and re-validating against the result -/

theorem appliedSlotEvent_plant (a : SlotAction) (now : Int) (c : String)
    (hact : a.action = "plant") (hcrop : a.crop = some c) (hcne : c ≠ "") :
    appliedSlotEvent a now = some (appliedPlantEvt a now c) := by
  unfold appliedSlotEvent appliedPlantEvt
  rw [hact, if_neg (by decide), if_pos rfl, hcrop]
  dsimp only
  rw [if_neg hcne]

theorem appliedSlotEvent_harvest (a : SlotAction) (now : Int)
    (hact : a.action = "harvest") :
    appliedSlotEvent a now = some (appliedHarvestEvt a now) := by
  unfold appliedSlotEvent appliedHarvestEvt
  rw [hact, if_pos rfl]

theorem parse_appliedPlant (a : SlotAction) (now : Int) (c : String) (hcne : c ≠ "")
    (hsd : a.slotD ≠ "") (hw : a.worldId ≠ "") (hm : a.mapId ≠ "") :
    parseSlotState (appliedPlantEvt a now c) = some (appliedPlantSlot a now c) := by
  have hgd : getTag (appliedPlantEvt a now c) "d" = some a.slotD := rfl
  have hgv : getTag (appliedPlantEvt a now c) "v" = some "1" := rfl
  have hgw : getTag (appliedPlantEvt a now c) "world" = some a.worldId := rfl
  have hgm : getTag (appliedPlantEvt a now c) "map" = some a.mapId := rfl
  have hgt : getTag (appliedPlantEvt a now c) "type" = some "plant" := rfl
  have hgc : getTag (appliedPlantEvt a now c) "crop" = some c := rfl
  have hgs : getTag (appliedPlantEvt a now c) "stage" = some "0" := rfl
  have hgp : getTag (appliedPlantEvt a now c) "planted_at" = some (jsNumToString now) := rfl
  have hfind : findSlotTag (appliedPlantEvt a now c) =
    some ["slot", jsNumToString a.slot.x, jsNumToString a.slot.y] := rfl
  have t1 : truthyS (some a.slotD) = true := by simp [truthyS, hsd]
  have t3 : truthyS (some a.worldId) = true := by simp [truthyS, hw]
  have t4 : truthyS (some a.mapId) = true := by simp [truthyS, hm]
  have t5 : truthyS (some (jsNumToString a.slot.x)) = true := by
    simp [truthyS, jsNumToString_ne_empty]
  have t6 : truthyS (some (jsNumToString a.slot.y)) = true := by
    simp [truthyS, jsNumToString_ne_empty]
  have t7 : truthyS (some c) = true := by simp [truthyS, hcne]
  unfold parseSlotState
  rw [if_neg (fun h => h rfl), hgd, hgv, hgw, hgm, hgt, hfind]
  dsimp only
  rw [show slotTagXY ["slot", jsNumToString a.slot.x, jsNumToString a.slot.y] =
    (some (jsNumToString a.slot.x), some (jsNumToString a.slot.y)) from rfl]
  dsimp only
  simp only [t1, t3, t4, t5, t6]
  rw [if_neg (by decide)]
  simp only [Option.getD_some]
  rw [jsParseInt_jsNumToString, jsParseInt_jsNumToString]
  dsimp only
  rw [if_neg (by decide), hgc]
  simp only [t7]
  rw [if_neg (by decide), hgs, hgp]
  dsimp only
  rw [if_neg (by decide), if_neg (jsNumToString_ne_empty now),
    jsParseInt_jsNumToString]
  rfl

theorem parse_appliedHarvest (a : SlotAction) (now : Int)
    (hsd : a.slotD ≠ "") (hw : a.worldId ≠ "") (hm : a.mapId ≠ "") :
    parseSlotState (appliedHarvestEvt a now) = some (appliedHarvestSlot a now) := by
  have hgd : getTag (appliedHarvestEvt a now) "d" = some a.slotD := rfl
  have hgv : getTag (appliedHarvestEvt a now) "v" = some "1" := rfl
  have hgw : getTag (appliedHarvestEvt a now) "world" = some a.worldId := rfl
  have hgm : getTag (appliedHarvestEvt a now) "map" = some a.mapId := rfl
  have hgt : getTag (appliedHarvestEvt a now) "type" = some "empty" := rfl
  have hfind : findSlotTag (appliedHarvestEvt a now) =
    some ["slot", jsNumToString a.slot.x, jsNumToString a.slot.y] := rfl
  have t1 : truthyS (some a.slotD) = true := by simp [truthyS, hsd]
  have t3 : truthyS (some a.worldId) = true := by simp [truthyS, hw]
  have t4 : truthyS (some a.mapId) = true := by simp [truthyS, hm]
  have t5 : truthyS (some (jsNumToString a.slot.x)) = true := by
    simp [truthyS, jsNumToString_ne_empty]
  have t6 : truthyS (some (jsNumToString a.slot.y)) = true := by
    simp [truthyS, jsNumToString_ne_empty]
  have hopt : optNum (some (jsNumToString now)) = some (some now) := by
    unfold optNum
    dsimp only
    rw [if_neg (jsNumToString_ne_empty now), jsParseInt_jsNumToString]
  unfold parseSlotState
  rw [if_neg (fun h => h rfl), hgd, hgv, hgw, hgm, hgt, hfind]
  dsimp only
  rw [show slotTagXY ["slot", jsNumToString a.slot.x, jsNumToString a.slot.y] =
    (some (jsNumToString a.slot.x), some (jsNumToString a.slot.y)) from rfl]
  dsimp only
  simp only [t1, t3, t4, t5, t6]
  rw [if_neg (by decide)]
  simp only [Option.getD_some]
  rw [jsParseInt_jsNumToString, jsParseInt_jsNumToString]
  dsimp only
  rw [if_pos trivial,
    show getTag (appliedHarvestEvt a now) "status" = some "empty" from rfl,
    show getTag (appliedHarvestEvt a now) "last_harvested_at" =
      some (jsNumToString now) from rfl, hopt]
  rfl

theorem rev_appliedPlant (a : SlotAction) (now : Int) (c : String) :
    getSlotRevision (appliedPlantSlot a now c) = now := by
  unfold getSlotRevision appliedPlantSlot
  dsimp only
  by_cases h : now = 0
  · subst h; simp [appliedPlantEvt]
  · simp [h]

theorem rev_appliedHarvest (a : SlotAction) (now : Int) :
    getSlotRevision (appliedHarvestSlot a now) = now := rfl

/-- C2 (amended): given a current Slot state (possibly absent) at revision R
and two decoded plant Actions for it claiming expectedRev = R, where the
Validator accepts the first in log order, the second carries a crop id, and
the processing time of the apply differs from R: after the first is applied
(published and re-decoded), the Validator rejects the second with the
revision-mismatch reason — exactly one of the two is accepted, the first
evaluated, regardless of submission order. -/
theorem conflicting_plants_serialize (ev1 ev2 : NostrEvent) (a1 a2 : SlotAction)
    (currentSlot : Option SlotState) (now : Int)
    (h1 : parseSlotAction ev1 = some a1) (h2 : parseSlotAction ev2 = some a2)
    (hact1 : a1.action = "plant") (hact2 : a2.action = "plant")
    (hcrop2 : truthyS a2.crop = true)
    (hrev2 : a2.expectedRev = currentRevOf currentSlot)
    (hacc : (validateAction a1 currentSlot).valid = true)
    (hnow : now ≠ currentRevOf currentSlot) :
    (validateAction a1 currentSlot).valid = true ∧
    ∃ e s2, appliedSlotEvent a1 now = some e ∧ parseSlotState e = some s2 ∧
      validateAction a2 (some s2) =
        { valid := false, reason := some (revMismatchReason a2.expectedRev now) } := by
  obtain ⟨_, _, _, _, _, _, _, _, _, hsd1, hw1, hm1, _, _⟩ :=
    parseSlotAction_sound ev1 a1 h1
  have hacc' := hacc
  unfold validateAction at hacc'
  rw [hact1, if_neg (by decide), if_pos rfl] at hacc'
  have hcrop1 : truthyS a1.crop = true := by
    cases hcv : truthyS a1.crop with
    | true => rfl
    | false =>
      rw [if_pos (by rw [hcv]; rfl)] at hacc'
      exact Bool.noConfusion hacc'
  obtain ⟨c, hc, hcne⟩ := truthy_exists hcrop1
  refine ⟨hacc, appliedPlantEvt a1 now c, appliedPlantSlot a1 now c,
    appliedSlotEvent_plant a1 now c hact1 hc hcne,
    parse_appliedPlant a1 now c hcne hsd1 hw1 hm1, ?_⟩
  unfold validateAction
  rw [hact2, if_neg (by decide), if_pos rfl]
  simp only [hcrop2]
  rw [if_neg (by decide)]
  try dsimp only
  rw [rev_appliedPlant]
  rw [if_pos (by intro hh; exact hnow (hh.symm.trans hrev2))]

/-- C2 witness: the amended conflict rule run on an absent slot (revision 0)
and two concrete plant intents, applied at processing time 100. -/
theorem conflicting_plants_serialize_witness :
    (validateAction actPlant none).valid = true ∧
    ∃ e s2, appliedSlotEvent actPlant 100 = some e ∧ parseSlotState e = some s2 ∧
      validateAction actPlant2 (some s2) =
        { valid := false, reason := some (revMismatchReason actPlant2.expectedRev 100) } :=
  conflicting_plants_serialize evPlant evPlant2 actPlant actPlant2 none 100
    (by decide) (by decide) rfl rfl (by decide) (by decide) (by decide) (by decide)

/-- C2 counterexample: an occupied Slot at revision R = 40 with two plant
Actions both claiming expectedRev = 40 for its coordinates.  The first
evaluated is rejected ('Slot is not empty'), so the slot never changes and
the second is rejected against the same state too: the Validator accepts
zero of the two, not "exactly one", falsifying the claim as stated. -/
theorem conflicting_plants_serialize_counterexample :
    parseSlotState evWheat = some slotWheat ∧
    parseSlotAction evQ1 = some actQ1 ∧ parseSlotAction evQ2 = some actQ2 ∧
    actQ1.action = "plant" ∧ actQ2.action = "plant" ∧
    actQ1.expectedRev = getSlotRevision slotWheat ∧
    actQ2.expectedRev = getSlotRevision slotWheat ∧
    (validateAction actQ1 (some slotWheat)).valid = false ∧
    (validateAction actQ2 (some slotWheat)).valid = false := by decide

/-- C4 (amended): re-evaluating an Action that the Validator accepted,
against the re-decoded Slot state produced by applying it at processing time
`now` (the new slot's revision), always yields a rejection, with the reason
fully determined: after a harvest, 'Slot is not a plant' (the slot-kind check
precedes the revision check); after a plant, the revision-mismatch reason
when the claimed expected revision differs from `now`, and 'Slot is not
empty' when it coincides — hence a second application of the same Action
never changes the final Slot state, even with the dedup check skipped. -/
theorem reapply_rejected (ev : NostrEvent) (a : SlotAction)
    (currentSlot : Option SlotState) (now : Int)
    (hdec : parseSlotAction ev = some a)
    (hacc : (validateAction a currentSlot).valid = true) :
    ∃ e s2, appliedSlotEvent a now = some e ∧ parseSlotState e = some s2 ∧
      getSlotRevision s2 = now ∧
      (validateAction a (some s2)).valid = false ∧
      (a.action = "harvest" →
        (validateAction a (some s2)).reason = some "Slot is not a plant") ∧
      (a.action = "plant" → a.expectedRev ≠ now →
        (validateAction a (some s2)).reason =
          some (revMismatchReason a.expectedRev now)) ∧
      (a.action = "plant" → a.expectedRev = now →
        (validateAction a (some s2)).reason = some "Slot is not empty") := by
  obtain ⟨_, _, _, _, _, _, _, _, _, hsd, hw, hm, _, _⟩ :=
    parseSlotAction_sound ev a hdec
  by_cases hh : a.action = "harvest"
  · have hval : validateAction a (some (appliedHarvestSlot a now)) =
        { valid := false, reason := some "Slot is not a plant" } := by
      unfold validateAction
      rw [hh, if_pos rfl]
      try dsimp only
      rw [if_pos (show (appliedHarvestSlot a now).type ≠ "plant" from
        (by decide : ("empty" : String) ≠ "plant"))]
    exact ⟨appliedHarvestEvt a now, appliedHarvestSlot a now,
      appliedSlotEvent_harvest a now hh, parse_appliedHarvest a now hsd hw hm,
      rev_appliedHarvest a now, by rw [hval], fun _ => by rw [hval],
      fun hpa _ => absurd (hh.symm.trans hpa) (by decide),
      fun hpa _ => absurd (hh.symm.trans hpa) (by decide)⟩
  · by_cases hp : a.action = "plant"
    · have hacc' := hacc
      unfold validateAction at hacc'
      rw [hp, if_neg (by decide), if_pos rfl] at hacc'
      have hcrop1 : truthyS a.crop = true := by
        cases hcv : truthyS a.crop with
        | true => rfl
        | false =>
          rw [if_pos (by rw [hcv]; rfl)] at hacc'
          exact Bool.noConfusion hacc'
      obtain ⟨c, hc, hcne⟩ := truthy_exists hcrop1
      by_cases hre : a.expectedRev ≠ now
      · have hval : validateAction a (some (appliedPlantSlot a now c)) =
            { valid := false,
              reason := some (revMismatchReason a.expectedRev now) } := by
          unfold validateAction
          rw [hp, if_neg (by decide), if_pos rfl]
          simp only [hcrop1]
          rw [if_neg (by decide)]
          try dsimp only
          rw [rev_appliedPlant, if_pos hre]
        exact ⟨appliedPlantEvt a now c, appliedPlantSlot a now c,
          appliedSlotEvent_plant a now c hp hc hcne,
          parse_appliedPlant a now c hcne hsd hw hm, rev_appliedPlant a now c,
          by rw [hval], fun hha => absurd (hp.symm.trans hha) (by decide),
          fun _ _ => by rw [hval], fun _ heq => absurd heq hre⟩
      · have heq : a.expectedRev = now := by push_neg at hre; exact hre
        have hval : validateAction a (some (appliedPlantSlot a now c)) =
            { valid := false, reason := some "Slot is not empty" } := by
          unfold validateAction
          rw [hp, if_neg (by decide), if_pos rfl]
          simp only [hcrop1]
          rw [if_neg (by decide)]
          try dsimp only
          rw [rev_appliedPlant, if_neg hre,
            if_pos (show (appliedPlantSlot a now c).type ≠ "empty" from
              (by decide : ("plant" : String) ≠ "empty"))]
        exact ⟨appliedPlantEvt a now c, appliedPlantSlot a now c,
          appliedSlotEvent_plant a now c hp hc hcne,
          parse_appliedPlant a now c hcne hsd hw hm, rev_appliedPlant a now c,
          by rw [hval], fun hha => absurd (hp.symm.trans hha) (by decide),
          fun _ hne => absurd heq hne, fun _ _ => by rw [hval]⟩
    · exfalso
      unfold validateAction at hacc
      rw [if_neg hh, if_neg hp] at hacc
      exact Bool.noConfusion hacc

/-- C4 counterexample: a harvest accepted at revision 40 and applied at time
100 produces an empty slot whose revision 100 has indeed advanced past the
claimed 40 — yet re-evaluating the same harvest is rejected with reason
'Slot is not a plant', not the revision mismatch the claim asserts. -/
theorem reapply_rejected_counterexample :
    (validateAction actHarvest (some slotWheat)).valid = true ∧
    appliedSlotEvent actHarvest 100 = some evAfterHarvest ∧
    parseSlotState evAfterHarvest = some slotAfterHarvest ∧
    actHarvest.expectedRev ≠ getSlotRevision slotAfterHarvest ∧
    validateAction actHarvest (some slotAfterHarvest) =
      { valid := false, reason := some "Slot is not a plant" } := by decide

/-- C4 witness: the amended re-application rule run on the concrete accepted
harvest action, applied at processing time 100. -/
theorem reapply_rejected_witness :
    ∃ e s2, appliedSlotEvent actHarvest 100 = some e ∧ parseSlotState e = some s2 ∧
      getSlotRevision s2 = 100 ∧
      (validateAction actHarvest (some s2)).valid = false ∧
      (actHarvest.action = "harvest" →
        (validateAction actHarvest (some s2)).reason = some "Slot is not a plant") ∧
      (actHarvest.action = "plant" → actHarvest.expectedRev ≠ 100 →
        (validateAction actHarvest (some s2)).reason =
          some (revMismatchReason actHarvest.expectedRev 100)) ∧
      (actHarvest.action = "plant" → actHarvest.expectedRev = 100 →
        (validateAction actHarvest (some s2)).reason = some "Slot is not empty") :=
  reapply_rejected evHarvest actHarvest (some slotWheat) 100 (by decide) (by decide)
